import Mathlib

/-! Brush filtering of the level editor (`radiant/filters.cpp`).

A shallow embedding of the rule list (`bfilter_t`), of the rule factory
`FilterAdd`, the standard rule set `FilterUpdate`, the teardown
`FilterListDelete` and the evaluator `FilterBrush`, followed by the theorems
that settle the specification's claims about them.

Conventions of the embedding.

* A C `int` used as a bit set is represented by its 32-bit pattern, a `Nat`;
  `&` is `&&&` and the C truth test is `≠ 0` (both agree with the machine
  operations on the patterns).
* A `const char *` that the evaluator reads is a `String`; the intrusive
  `next` link of `bfilter_t` and of `face_t` is the tail of a `List`.
* The process-wide state `g_qeglobals.d_savedinfo.exclude` and
  `g_qeglobals.d_savedinfo.filters` is passed explicitly as `g_exclude` and
  `g_filters`.
* Dereferencing a null `brush_faces` pointer has no defined result; it is
  rendered as `none` in the `Option Bool` that `FilterBrush` returns.
-/

set_option autoImplicit false

/-! ## Constants declared outside `filters.cpp` -/

/-- Header constants that `filters.cpp` uses and that are declared in headers
outside the two source files; they are taken as parameters. -/
structure FilterConsts where
  EXCLUDE_CLIP : Nat
  EXCLUDE_CAULK : Nat
  EXCLUDE_LIQUIDS : Nat
  EXCLUDE_HINTSSKIPS : Nat
  EXCLUDE_CLUSTERPORTALS : Nat
  EXCLUDE_AREAPORTALS : Nat
  EXCLUDE_TRANSLUCENT : Nat
  EXCLUDE_TRIGGERS : Nat
  EXCLUDE_MODELS : Nat
  EXCLUDE_LIGHTS : Nat
  EXCLUDE_PATHS : Nat
  EXCLUDE_LIGHTGRID : Nat
  EXCLUDE_BOTCLIP : Nat
  EXCLUDE_WORLD : Nat
  EXCLUDE_ENT : Nat
  EXCLUDE_CURVES : Nat
  EXCLUDE_DETAILS : Nat
  EXCLUDE_STRUCTURAL : Nat
  CONTENTS_DETAIL : Nat
  QER_TRANS : Nat
  ECLASS_LIGHT : Nat
  ECLASS_PATH : Nat

/-- The category constants that `FilterUpdate` hands to `FilterAdd`, in the
order of the calls. -/
def FilterConsts.ruleBits (c : FilterConsts) : List Nat :=
  [c.EXCLUDE_CLIP, c.EXCLUDE_CAULK, c.EXCLUDE_LIQUIDS, c.EXCLUDE_HINTSSKIPS,
   c.EXCLUDE_CLUSTERPORTALS, c.EXCLUDE_AREAPORTALS, c.EXCLUDE_TRANSLUCENT,
   c.EXCLUDE_TRIGGERS, c.EXCLUDE_MODELS, c.EXCLUDE_MODELS, c.EXCLUDE_LIGHTS,
   c.EXCLUDE_PATHS, c.EXCLUDE_LIGHTGRID, c.EXCLUDE_BOTCLIP, c.EXCLUDE_BOTCLIP]

/-- Modelled from the spec: the values of the category macros are missing
from the sources; the spec describes the bit set as "one bit per named
category". A category constant is admissible when it is a nonzero pattern
of a 32-bit `int`. -/
def FilterConsts.ruleBitsAdmissible (c : FilterConsts) : Prop :=
  ∀ b ∈ c.ruleBits, b ≠ 0 ∧ b < 2 ^ 32

/-- One admissible assignment of the header constants (every category one
distinct bit), used for concrete evaluations. -/
def sampleConsts : FilterConsts where
  EXCLUDE_CLIP := 0x20
  EXCLUDE_CAULK := 0x1000
  EXCLUDE_LIQUIDS := 0x8
  EXCLUDE_HINTSSKIPS := 0x200
  EXCLUDE_CLUSTERPORTALS := 0x2000
  EXCLUDE_AREAPORTALS := 0x4000
  EXCLUDE_TRANSLUCENT := 0x8000
  EXCLUDE_TRIGGERS := 0x10000
  EXCLUDE_MODELS := 0x400
  EXCLUDE_LIGHTS := 0x1
  EXCLUDE_PATHS := 0x4
  EXCLUDE_LIGHTGRID := 0x80000
  EXCLUDE_BOTCLIP := 0x40000
  EXCLUDE_WORLD := 0x10
  EXCLUDE_ENT := 0x2
  EXCLUDE_CURVES := 0x80
  EXCLUDE_DETAILS := 0x40
  EXCLUDE_STRUCTURAL := 0x20000
  CONTENTS_DETAIL := 0x8000000
  QER_TRANS := 0x1
  ECLASS_LIGHT := 0x1
  ECLASS_PATH := 0x10

/-- The bit set with all 32 bits set (`int` value `-1`). -/
def allBitsSet : Nat := 2 ^ 32 - 1

/-! ## Data model -/

/-- A node of the rule list (`bfilter_t`); the `next` pointer is the list
tail and `attr` is the field `attribute` (a reserved word here). -/
structure bfilter_t where
  attr : Int
  mask : Nat
  string : String
  active : Bool
deriving DecidableEq, Repr

/-- The part of a shader the evaluator reads: `getName()` and `getFlags()`. -/
structure IShader where
  getName : String
  getFlags : Nat
deriving DecidableEq, Repr

/-- Texture definition of a face: surface flags and content flags. -/
structure texdef_t where
  flags : Nat
  contents : Nat
deriving DecidableEq, Repr

/-- A face of a brush; `next` is the list tail. -/
structure face_t where
  pShader : IShader
  texdef : texdef_t
deriving DecidableEq, Repr

/-- A patch mesh: only its shader is read. -/
structure patchMesh_t where
  pShader : IShader
deriving DecidableEq, Repr

/-- An entity class: name and show-flags. -/
structure eclass_t where
  name : String
  nShowFlags : Nat
deriving DecidableEq, Repr

/-- An entity: only its class is read. -/
structure entity_t where
  eclass : eclass_t
deriving DecidableEq, Repr

/-- A scene object (`brush_t`). `owner = none` is the null owner of an
object under construction; `brush_faces = []` is a null face pointer. -/
structure brush_t where
  owner : Option entity_t
  hiddenBrush : Bool
  patchBrush : Bool
  pPatch : patchMesh_t
  brush_faces : List face_t
deriving DecidableEq, Repr

/-! ## C library string functions -/

/-- Does `needle` occur at the very start of `haystack`? -/
def matchAt : List Char → List Char → Bool
  | _, [] => true
  | [], _ :: _ => false
  | h :: hs, n :: ns => h == n && matchAt hs ns

/-- The scan of `strstr`: try every start position of the haystack, the end
of the string included. -/
def strstrChars : List Char → List Char → Bool
  | [], needle => matchAt [] needle
  | h :: hs, needle => matchAt (h :: hs) needle || strstrChars hs needle

/-- The test `strstr(haystack, needle) != NULL`. -/
def strstr (haystack needle : String) : Bool :=
  strstrChars haystack.data needle.data

/-- The test `strcmp(a, b) == 0`. -/
def strcmp_eq (a b : String) : Bool :=
  a.data == b.data

/-- The test `strncmp(a, b, n) == 0`: the first `n` characters agree. -/
def strncmp_eq (a b : String) (n : Nat) : Bool :=
  a.data.take n == b.data.take n

/-- The C truth value of `x & m`. -/
def flagSet (x m : Nat) : Bool :=
  (x &&& m) != 0

/-! ## Rule list construction -/

/-- `FilterAdd`. `pNew` is the node as `new bfilter_t` returns it, before any
field is assigned (the fields that `FilterAdd` leaves alone keep the values
of that node); `g_exclude` is the global excluded-categories bit set. -/
def FilterAdd (pNew : bfilter_t) (g_exclude : Nat) (pFilter : List bfilter_t)
    (type : Int) (bmask : Nat) (str : String) (exclude : Nat) : List bfilter_t :=
  let n1 : bfilter_t := { pNew with attr := type }
  let n2 : bfilter_t := if type = 1 ∨ type = 3 then { n1 with string := str } else n1
  let n3 : bfilter_t :=
    if type = 2 ∨ type = 4 ∨ type = 5 ∨ type = 6 ∨ type = 7 then { n2 with mask := bmask } else n2
  let n4 : bfilter_t :=
    if flagSet g_exclude exclude then { n3 with active := true } else { n3 with active := false }
  n4 :: pFilter

/-- `FilterListDelete`: frees the tail, then the node, and returns the null
list. -/
def FilterListDelete : List bfilter_t → List bfilter_t
  | [] => []
  | _ :: next =>
    let _freed := FilterListDelete next
    []

/-- The `NULL` that `FilterUpdate` passes as `str` for the flag rules;
`FilterAdd` does not store `str` for those types. -/
def NULL_str : String := ""

/-- `FilterUpdate`: the standard rule set, added in front of `pFilter`.
`alloc k` is the node that the k-th `new bfilter_t` returns. -/
def FilterUpdate (c : FilterConsts) (alloc : Nat → bfilter_t) (g_exclude : Nat)
    (pFilter : List bfilter_t) : List bfilter_t :=
  let pFilter := FilterAdd (alloc 0) g_exclude pFilter 1 0 "clip" c.EXCLUDE_CLIP
  let pFilter := FilterAdd (alloc 1) g_exclude pFilter 1 0 "caulk" c.EXCLUDE_CAULK
  let pFilter := FilterAdd (alloc 2) g_exclude pFilter 1 0 "liquids" c.EXCLUDE_LIQUIDS
  let pFilter := FilterAdd (alloc 3) g_exclude pFilter 1 0 "hint" c.EXCLUDE_HINTSSKIPS
  let pFilter := FilterAdd (alloc 4) g_exclude pFilter 1 0 "clusterportal" c.EXCLUDE_CLUSTERPORTALS
  let pFilter := FilterAdd (alloc 5) g_exclude pFilter 1 0 "areaportal" c.EXCLUDE_AREAPORTALS
  let pFilter := FilterAdd (alloc 6) g_exclude pFilter 2 c.QER_TRANS NULL_str c.EXCLUDE_TRANSLUCENT
  let pFilter := FilterAdd (alloc 7) g_exclude pFilter 3 0 "trigger" c.EXCLUDE_TRIGGERS
  let pFilter := FilterAdd (alloc 8) g_exclude pFilter 3 0 "misc_model" c.EXCLUDE_MODELS
  let pFilter := FilterAdd (alloc 9) g_exclude pFilter 3 0 "misc_gamemodel" c.EXCLUDE_MODELS
  let pFilter := FilterAdd (alloc 10) g_exclude pFilter 4 c.ECLASS_LIGHT NULL_str c.EXCLUDE_LIGHTS
  let pFilter := FilterAdd (alloc 11) g_exclude pFilter 4 c.ECLASS_PATH NULL_str c.EXCLUDE_PATHS
  let pFilter := FilterAdd (alloc 12) g_exclude pFilter 1 0 "lightgrid" c.EXCLUDE_LIGHTGRID
  let pFilter := FilterAdd (alloc 13) g_exclude pFilter 1 0 "botclip" c.EXCLUDE_BOTCLIP
  let pFilter := FilterAdd (alloc 14) g_exclude pFilter 1 0 "clipmonster" c.EXCLUDE_BOTCLIP
  pFilter

/-- One round of the rebuild contract: `FilterListDelete` and then
`FilterUpdate` on the list it returns. -/
def rebuild (c : FilterConsts) (alloc : Nat → bfilter_t) (g_exclude : Nat)
    (pFilter : List bfilter_t) : List bfilter_t :=
  FilterUpdate c alloc g_exclude (FilterListDelete pFilter)

/-- The rule list after `n` rounds of `rebuild`, starting from `pFilter`. -/
def rebuildTimes (c : FilterConsts) (alloc : Nat → bfilter_t) (g_exclude : Nat) :
    Nat → List bfilter_t → List bfilter_t
  | 0, pFilter => pFilter
  | n + 1, pFilter => rebuild c alloc g_exclude (rebuildTimes c alloc g_exclude n pFilter)

/-! ## The evaluator -/

/-- Body of the inner rule loop of the face stage for one rule: `true` when
the rule sets `filterbrush` and leaves the loop. -/
def faceRuleHit (f : face_t) (filters : bfilter_t) : Bool :=
  if !filters.active then false
  else if filters.attr == 1 then strstr f.pShader.getName filters.string
  else if filters.attr == 2 then flagSet f.pShader.getFlags filters.mask
  else if filters.attr == 5 then
    (f.texdef.flags != 0) && flagSet f.texdef.flags filters.mask
  else if filters.attr == 6 then
    (f.texdef.contents != 0) && flagSet f.texdef.contents filters.mask
  else if filters.attr == 7 then
    (f.texdef.contents != 0) && !(flagSet f.texdef.contents filters.mask)
  else false

/-- The inner loop over the rule list for one face; the result is the value
of `filterbrush` when the loop is left. -/
def faceRuleLoop (f : face_t) : List bfilter_t → Bool
  | [] => false
  | filters :: next => if faceRuleHit f filters then true else faceRuleLoop f next

/-- The outer loop over the faces; `filterbrush` is the value of the variable
on entry, the result its value when the loop is left. -/
def faceLoop (g_filters : List bfilter_t) : List face_t → Bool → Bool
  | [], filterbrush => filterbrush
  | f :: next, _ =>
    let filterbrush := faceRuleLoop f g_filters
    if !filterbrush then filterbrush else faceLoop g_filters next filterbrush

/-- The rule loop of the patch stage; the result is `drawpatch`. -/
def patchLoop (pPatch : patchMesh_t) : List bfilter_t → Bool
  | [] => true
  | filters :: next =>
    if filters.active && filters.attr == 1
        && strstr pPatch.pShader.getName filters.string then false
    else if filters.active && filters.attr == 2
        && flagSet pPatch.pShader.getFlags filters.mask then false
    else patchLoop pPatch next

/-- The rule loop of the entity stage; the result is `drawentity`. -/
def entityLoop (eclass : eclass_t) : List bfilter_t → Bool
  | [] => true
  | filters :: next =>
    if filters.active && filters.attr == 3 then
      if strstr eclass.name filters.string then false else entityLoop eclass next
    else if filters.active && filters.attr == 4 then
      if flagSet eclass.nShowFlags filters.mask then false else entityLoop eclass next
    else entityLoop eclass next

/-- The three rule stages of `FilterBrush` (source lines 157-289), reached
when no earlier test returned. -/
def ruleStages (g_filters : List bfilter_t) (pb : brush_t) (owner : entity_t) : Bool :=
  if (strcmp_eq owner.eclass.name "worldspawn"
        || strncmp_eq owner.eclass.name "func" 4
        || strncmp_eq owner.eclass.name "trigger" 7) && !pb.patchBrush
      && faceLoop g_filters pb.brush_faces false then true
  else if pb.patchBrush && !(patchLoop pb.pPatch g_filters) then true
  else if !(strcmp_eq owner.eclass.name "worldspawn")
      && !(entityLoop owner.eclass g_filters) then true
  else false

/-- The expression `pb->brush_faces->texdef.contents`: `none` when
`brush_faces` is null. -/
def firstFaceContents (pb : brush_t) : Option Nat :=
  match pb.brush_faces with
  | [] => none
  | f :: _ => some f.texdef.contents

/-- The detail test (source lines 142-148): `some true` when it returns
TRUE, `some false` when control falls through, `none` when the null face
pointer is dereferenced. -/
def detailsTest (c : FilterConsts) (g_exclude : Nat) (pb : brush_t) : Option Bool :=
  if flagSet g_exclude c.EXCLUDE_DETAILS then
    if !pb.patchBrush then
      match firstFaceContents pb with
      | none => none
      | some contents => some (flagSet contents c.CONTENTS_DETAIL)
    else some false
  else some false

/-- The structural test (source lines 149-155), with the results of
`detailsTest`. -/
def structuralTest (c : FilterConsts) (g_exclude : Nat) (pb : brush_t) : Option Bool :=
  if flagSet g_exclude c.EXCLUDE_STRUCTURAL then
    if !pb.patchBrush then
      match firstFaceContents pb with
      | none => none
      | some contents => some (!(flagSet contents c.CONTENTS_DETAIL))
    else some false
  else some false

/-- `FilterBrush`: `some true` is "excluded", `some false` "not excluded",
`none` a null dereference. -/
def FilterBrush (c : FilterConsts) (g_exclude : Nat) (g_filters : List bfilter_t)
    (pb : brush_t) : Option Bool :=
  match pb.owner with
  | none => some false
  | some owner =>
    if pb.hiddenBrush then some true
    else if flagSet g_exclude c.EXCLUDE_WORLD
        && (strcmp_eq owner.eclass.name "worldspawn"
            || strcmp_eq owner.eclass.name "func_group") then some true
    else if flagSet g_exclude c.EXCLUDE_ENT
        && (!(strcmp_eq owner.eclass.name "worldspawn")
            && !(strcmp_eq owner.eclass.name "func_group")) then some true
    else if flagSet g_exclude c.EXCLUDE_CURVES && pb.patchBrush then some true
    else
      match detailsTest c g_exclude pb with
      | none => none
      | some true => some true
      | some false =>
        match structuralTest c g_exclude pb with
        | none => none
        | some true => some true
        | some false => some (ruleStages g_filters pb owner)

/-! ## Concrete objects used in evaluations -/

/-- The entity "worldspawn". -/
def worldspawn : entity_t := ⟨⟨"worldspawn", 0⟩⟩

/-- A face with the given shader name and no flags. -/
def faceNamed (name : String) : face_t := ⟨⟨name, 0⟩, ⟨0, 0⟩⟩

/-- A solid brush of `worldspawn` with the given faces, not force-hidden. -/
def worldBrush (faces : List face_t) : brush_t :=
  { owner := some worldspawn, hiddenBrush := false, patchBrush := false,
    pPatch := ⟨⟨"", 0⟩⟩, brush_faces := faces }

/-- The caulk brush of the spec: one face "textures/common/caulk". -/
def caulkBrush : brush_t := worldBrush [faceNamed "textures/common/caulk"]

/-- A TextureName rule. -/
def textureRule (s : String) (active : Bool) : bfilter_t := ⟨1, 0, s, active⟩

/-- A two-face brush of `worldspawn`: a caulk face and a wall face. -/
def twoFaceBrush : brush_t :=
  worldBrush [faceNamed "textures/common/caulk", faceNamed "textures/base_wall/metal"]

/-- An object under construction: no owner, yet force-hidden and a patch. -/
def unownedPatch : brush_t :=
  { owner := none, hiddenBrush := true, patchBrush := true,
    pPatch := ⟨⟨"textures/common/caulk", 1⟩⟩, brush_faces := [] }

/-- A patch owned by a "func_static" entity, with shader flags 1. -/
def funcPatch : brush_t :=
  { owner := some ⟨⟨"func_static", 0⟩⟩, hiddenBrush := false, patchBrush := true,
    pPatch := ⟨⟨"textures/base_wall/metal", 1⟩⟩, brush_faces := [] }

/-- A ShaderFlags rule. -/
def shaderFlagsRule (mask : Nat) (active : Bool) : bfilter_t := ⟨2, mask, "", active⟩

/-- A solid brush of `worldspawn` whose single face has the given content
flags. -/
def contentsBrush (contents : Nat) : brush_t :=
  worldBrush [⟨⟨"textures/base_wall/metal", 0⟩, ⟨0, contents⟩⟩]

/-- A node as the allocator may return it, with arbitrary field values. -/
def rawNode : bfilter_t := ⟨99, 7, "raw", true⟩

/-- A patch owned by a "light" entity whose shader no standard name occurs
in. -/
def lightPatch : brush_t :=
  { owner := some ⟨⟨"light", 0⟩⟩, hiddenBrush := false, patchBrush := true,
    pPatch := ⟨⟨"textures/base_wall/metal", 0⟩⟩, brush_faces := [] }

/-- A rule of the given attribute with mask 0 and an empty string. -/
def blankRule (attr : Int) (active : Bool) : bfilter_t := ⟨attr, 0, "", active⟩

/-- A solid brush without faces (null `brush_faces`) owned by a "light"
entity whose show-flags are 1. -/
def facelessLight : brush_t :=
  { owner := some ⟨⟨"light", 1⟩⟩, hiddenBrush := false, patchBrush := false,
    pPatch := ⟨⟨"", 0⟩⟩, brush_faces := [] }

/-- A solid brush of a "func_group" entity with one wall face. -/
def groupBrush : brush_t :=
  { owner := some ⟨⟨"func_group", 0⟩⟩, hiddenBrush := false, patchBrush := false,
    pPatch := ⟨⟨"", 0⟩⟩, brush_faces := [faceNamed "textures/base_wall/metal"] }

/-- An EntityClassName rule. -/
def classNameRule (s : String) (active : Bool) : bfilter_t := ⟨3, 0, s, active⟩

/-- An EntityClassFlags rule. -/
def classFlagsRule (mask : Nat) (active : Bool) : bfilter_t := ⟨4, mask, "", active⟩

/-- A force-hidden solid brush of `worldspawn` with one wall face. -/
def hiddenBrush : brush_t :=
  { owner := some worldspawn, hiddenBrush := true, patchBrush := false,
    pPatch := ⟨⟨"", 0⟩⟩, brush_faces := [faceNamed "textures/base_wall/metal"] }

/-- A solid brush of `worldspawn` without faces, not force-hidden. -/
def facelessWorldBrush : brush_t := worldBrush []

/-- A ContentFlagsExcludeNoMatch rule. -/
def noMatchRule (mask : Nat) (active : Bool) : bfilter_t := ⟨7, mask, "", active⟩

/-- The faceless "light" brush, force-hidden. -/
def hiddenFacelessLight : brush_t := { facelessLight with hiddenBrush := true }

/-! ## The claims' vocabulary, written from the specification -/

/-- Unanchored, case-sensitive containment: `needle` occurs somewhere in
`haystack`. -/
def IsSubstring (needle haystack : String) : Prop :=
  ∃ before after : List Char, haystack.data = before ++ needle.data ++ after

/-- A face is matched by a rule, in the words of the specification: the rule
is active and its attribute test succeeds on the face. -/
def RuleMatchesFace (r : bfilter_t) (f : face_t) : Prop :=
  r.active = true ∧
  ((r.attr = 1 ∧ IsSubstring r.string f.pShader.getName) ∨
   (r.attr = 2 ∧ f.pShader.getFlags &&& r.mask ≠ 0) ∨
   (r.attr = 5 ∧ f.texdef.flags &&& r.mask ≠ 0) ∨
   (r.attr = 6 ∧ f.texdef.contents &&& r.mask ≠ 0) ∨
   (r.attr = 7 ∧ f.texdef.contents ≠ 0 ∧ f.texdef.contents &&& r.mask = 0))

/-- A patch is matched by a rule: an active TextureName rule whose string
occurs in the patch's shader name, or an active ShaderFlags rule whose mask
meets the patch's shader flags. -/
def RuleMatchesPatch (r : bfilter_t) (p : patchMesh_t) : Prop :=
  r.active = true ∧
  ((r.attr = 1 ∧ IsSubstring r.string p.pShader.getName) ∨
   (r.attr = 2 ∧ p.pShader.getFlags &&& r.mask ≠ 0))

/-- An entity class is matched by a rule: an active EntityClassName rule
whose string occurs in the class name, or an active EntityClassFlags rule
whose mask meets the show-flags. -/
def RuleMatchesEntity (r : bfilter_t) (e : eclass_t) : Prop :=
  r.active = true ∧
  ((r.attr = 3 ∧ IsSubstring r.string e.name) ∨
   (r.attr = 4 ∧ e.nShowFlags &&& r.mask ≠ 0))

/-- The owner classes whose solid brushes go through the face stage: the
name is "worldspawn", or begins with "func", or begins with "trigger". -/
def FaceStageClass (name : String) : Prop :=
  name = "worldspawn" ∨ (∃ rest : List Char, name.data = "func".data ++ rest)
    ∨ (∃ rest : List Char, name.data = "trigger".data ++ rest)

/-- None of the five global toggle bits is set in the bit set. -/
def NoToggle (c : FilterConsts) (g_exclude : Nat) : Prop :=
  g_exclude &&& c.EXCLUDE_WORLD = 0 ∧ g_exclude &&& c.EXCLUDE_ENT = 0
    ∧ g_exclude &&& c.EXCLUDE_CURVES = 0 ∧ g_exclude &&& c.EXCLUDE_DETAILS = 0
    ∧ g_exclude &&& c.EXCLUDE_STRUCTURAL = 0

/-- The bit set `e` with the bits of `m` set (`e | m`). -/
def setBits (e m : Nat) : Nat := e ||| m

/-- The bit set `e` with the bits of `m` cleared (`e & ~m`). -/
def clearBits (e m : Nat) : Nat := e ^^^ (e &&& m)

/-- Modelled from the spec: the values of the toggle macros are missing from
the sources; the spec describes the bit set as "one bit per named category".
The four global toggles other than the structural one use bits that the
structural toggle does not use. -/
def StructuralBitApart (c : FilterConsts) : Prop :=
  c.EXCLUDE_WORLD &&& c.EXCLUDE_STRUCTURAL = 0 ∧ c.EXCLUDE_ENT &&& c.EXCLUDE_STRUCTURAL = 0
    ∧ c.EXCLUDE_CURVES &&& c.EXCLUDE_STRUCTURAL = 0
    ∧ c.EXCLUDE_DETAILS &&& c.EXCLUDE_STRUCTURAL = 0

/-- The body of the patch loop for one rule: `true` when the rule clears
`drawpatch` and leaves the loop. -/
def patchRuleHit (p : patchMesh_t) (r : bfilter_t) : Bool :=
  (r.active && r.attr == 1 && strstr p.pShader.getName r.string)
    || (r.active && r.attr == 2 && flagSet p.pShader.getFlags r.mask)

/-- The body of the entity loop for one rule: `true` when the rule clears
`drawentity` and leaves the loop. -/
def entityRuleHit (e : eclass_t) (r : bfilter_t) : Bool :=
  (r.active && r.attr == 3 && strstr e.name r.string)
    || (r.active && r.attr == 4 && flagSet e.nShowFlags r.mask)

/-- The evaluation meets no null face pointer: the object is a patch, or has
at least one face, or the details and structural bits are both clear. -/
def FacesSafe (c : FilterConsts) (g_exclude : Nat) (pb : brush_t) : Prop :=
  pb.patchBrush = true ∨ pb.brush_faces ≠ []
    ∨ (g_exclude &&& c.EXCLUDE_DETAILS = 0 ∧ g_exclude &&& c.EXCLUDE_STRUCTURAL = 0)

/-- The owner's class counts as world: exactly "worldspawn" or "func_group". -/
def WorldClass (name : String) : Prop :=
  name = "worldspawn" ∨ name = "func_group"

/-- The tests of `FilterBrush` that precede the first face dereference
(source lines 114-139): `true` when one of them returns TRUE. -/
def earlyHit (c : FilterConsts) (g_exclude : Nat) (pb : brush_t) (owner : entity_t) : Bool :=
  pb.hiddenBrush
    || (flagSet g_exclude c.EXCLUDE_WORLD
        && (strcmp_eq owner.eclass.name "worldspawn"
            || strcmp_eq owner.eclass.name "func_group"))
    || (flagSet g_exclude c.EXCLUDE_ENT
        && (!(strcmp_eq owner.eclass.name "worldspawn")
            && !(strcmp_eq owner.eclass.name "func_group")))
    || (flagSet g_exclude c.EXCLUDE_CURVES && pb.patchBrush)

/-- The rest of `FilterBrush` (source lines 142-289), reached when no early
test returned. -/
def lateStages (c : FilterConsts) (g_exclude : Nat) (g_filters : List bfilter_t)
    (pb : brush_t) (owner : entity_t) : Option Bool :=
  match detailsTest c g_exclude pb with
  | none => none
  | some true => some true
  | some false =>
    match structuralTest c g_exclude pb with
    | none => none
    | some true => some true
    | some false => some (ruleStages g_filters pb owner)

/-- The payload of a rule as the data model describes it: the string for
TextureName and EntityClassName, the mask for the flag attributes. -/
def payload (r : bfilter_t) : String ⊕ Nat :=
  if r.attr = 1 ∨ r.attr = 3 then Sum.inl r.string else Sum.inr r.mask

/-- The attribute and payload of the rules that `FilterUpdate` adds, in the
order of its `FilterAdd` calls. -/
def standardRuleSet (c : FilterConsts) : List (Int × (String ⊕ Nat)) :=
  [(1, Sum.inl "clip"), (1, Sum.inl "caulk"), (1, Sum.inl "liquids"), (1, Sum.inl "hint"),
   (1, Sum.inl "clusterportal"), (1, Sum.inl "areaportal"), (2, Sum.inr c.QER_TRANS),
   (3, Sum.inl "trigger"), (3, Sum.inl "misc_model"), (3, Sum.inl "misc_gamemodel"),
   (4, Sum.inr c.ECLASS_LIGHT), (4, Sum.inr c.ECLASS_PATH), (1, Sum.inl "lightgrid"),
   (1, Sum.inl "botclip"), (1, Sum.inl "clipmonster")]

/-- The rule list `l2` is obtained from `l` by turning inactive rules active
and/or inserting further rules; the rules of `l` keep their order and their
other fields. -/
inductive RulesSwitchedOn : List bfilter_t → List bfilter_t → Prop
  | nil : RulesSwitchedOn [] []
  | keep (r : bfilter_t) {l l2 : List bfilter_t} :
      RulesSwitchedOn l l2 → RulesSwitchedOn (r :: l) (r :: l2)
  | activate (r : bfilter_t) {l l2 : List bfilter_t} :
      RulesSwitchedOn l l2 → RulesSwitchedOn (r :: l) ({ r with active := true } :: l2)
  | insert (r : bfilter_t) {l l2 : List bfilter_t} :
      RulesSwitchedOn l l2 → RulesSwitchedOn l (r :: l2)

/-- The set bits of `e2` include those of `e`. -/
def BitsInclude (e e2 : Nat) : Prop := e &&& e2 = e

/-! ## The plugin command name (`radiant/pluginmanager.cpp`) -/

/-- Modelled from the spec: `string_equal_prefix_nocase` is declared in
`string/string.h`, outside the sources. By its name, and in the words of the
claim on the command name, it tests that `string` starts with the second
argument, letters compared without regard to case: the first
`strlen(pre)` characters of `string` agree with `pre` after case folding. -/
def string_equal_prefix_nocase (string pre : String) : Bool :=
  (string.data.take pre.data.length).map Char.toLower == pre.data.map Char.toLower

/-- The loop "remove spaces + camelcasify": `p` is the rest of the command
name, `wasspace` the flag and `str` the buffer; the result is the buffer
when the loop ends. `push_back` appends to the buffer; `std::toupper` is
`Char.toUpper` (basic latin letters, as in the C locale). -/
def camelLoop : List Char → Bool → List Char → List Char
  | [], _, str => str
  | ch :: p, wasspace, str =>
    if ch == ' ' then camelLoop p true str
    else if wasspace then camelLoop p false (str ++ [ch.toUpper])
    else camelLoop p wasspace (str ++ [ch])

/-- The loop "del trailing periods", run for at most `fuel` rounds:
`str.back()` is the last character and `pop_back` removes it. -/
def delTrailingPeriods : Nat → List Char → List Char
  | 0, str => str
  | fuel + 1, str =>
    if !str.isEmpty && str.getLast? == some '.' then delTrailingPeriods fuel str.dropLast
    else str

/-- The assignment `*str.c_str() = std::tolower( *str.c_str() )`: the first
character is lower-cased; on the empty buffer only the terminator is
rewritten. -/
def lowerFirst : List Char → List Char
  | [] => []
  | ch :: rest => ch.toLower :: rest

/-- `plugin_construct_command_name`; the buffer is a list of characters. The
second loop pops one character per round, so `str.length` rounds of fuel
let it run to its end. -/
def plugin_construct_command_name (pluginName commandName : String) : String :=
  let str : List Char := []
  let str :=
    if !string_equal_prefix_nocase commandName pluginName then
      (str ++ pluginName.data) ++ "::".data
    else str
  let str := camelLoop commandName.data false str
  let str := delTrailingPeriods str.length str
  let str := lowerFirst str
  String.mk str

/-- What the camel-casing does to one character of the command name, given
the character before it: a space is dropped, a character that directly
follows a space is upper-cased, any other character is kept. -/
def camelStep (before : Option Char) (ch : Char) : Option Char :=
  if ch = ' ' then none else if before = some ' ' then some ch.toUpper else some ch

/-- The camel-cased command name in the words of the claim: every character
is treated by `camelStep` with the character that precedes it, in order. -/
def camelSpec (cmd : List Char) : List Char :=
  (List.zip (none :: cmd.map some) cmd).filterMap (fun pc => camelStep pc.1 pc.2)

/-- The string `s` starts with `pre`, letters compared without regard to
case. -/
def StartsNoCase (s pre : String) : Prop :=
  ∃ rest : List Char, s.data.map Char.toLower = pre.data.map Char.toLower ++ rest

/-- What precedes the camel-cased command name in the buffer: the plugin
name and "::" unless the command name starts with the plugin name. -/
def namePrefixPart (pluginName commandName : String) : List Char :=
  if string_equal_prefix_nocase commandName pluginName then []
  else pluginName.data ++ "::".data

/-! ## Lemmas on the string functions -/

theorem matchAt_iff (h n : List Char) : matchAt h n = true ↔ n <+: h := by
  induction h generalizing n with
  | nil => cases n <;> simp [matchAt]
  | cons a hs ih =>
    cases n with
    | nil => simp [matchAt]
    | cons b ns =>
      simp only [matchAt, Bool.and_eq_true, beq_iff_eq, ih, List.cons_prefix_cons]
      constructor
      · rintro ⟨h1, h2⟩; exact ⟨h1.symm, h2⟩
      · rintro ⟨h1, h2⟩; exact ⟨h1.symm, h2⟩

theorem strstrChars_iff (h n : List Char) : strstrChars h n = true ↔ n <:+: h := by
  induction h with
  | nil => cases n <;> simp [strstrChars, matchAt]
  | cons a hs ih =>
    simp only [strstrChars, Bool.or_eq_true, matchAt_iff, ih, List.infix_cons_iff]

theorem strstr_iff (haystack needle : String) :
    strstr haystack needle = true ↔ IsSubstring needle haystack := by
  unfold strstr IsSubstring
  rw [strstrChars_iff]
  constructor
  · rintro ⟨s, t, h⟩; exact ⟨s, t, h.symm⟩
  · rintro ⟨s, t, h⟩; exact ⟨s, t, h.symm⟩

theorem strstr_empty (haystack : String) : strstr haystack "" = true := by
  rw [strstr_iff]
  exact ⟨[], haystack.data, by simp⟩

theorem strcmp_eq_iff (a b : String) : strcmp_eq a b = true ↔ a = b := by
  unfold strcmp_eq
  rw [beq_iff_eq]
  constructor
  · intro h; exact String.ext h
  · intro h; rw [h]

theorem strncmp_eq_iff (a b : String) (n : Nat) (hn : b.data.length = n) :
    strncmp_eq a b n = true ↔ ∃ rest : List Char, a.data = b.data ++ rest := by
  unfold strncmp_eq
  rw [beq_iff_eq]
  have hb : b.data.take n = b.data := List.take_of_length_le (le_of_eq hn)
  rw [hb]
  constructor
  · intro h1
    refine ⟨a.data.drop n, ?_⟩
    rw [← h1, List.take_append_drop]
  · rintro ⟨rest, h1⟩
    rw [h1, ← hn, List.take_left]

theorem strncmp_func_iff (a : String) :
    strncmp_eq a "func" 4 = true ↔ ∃ rest : List Char, a.data = "func".data ++ rest :=
  strncmp_eq_iff a "func" 4 rfl

theorem strncmp_trigger_iff (a : String) :
    strncmp_eq a "trigger" 7 = true ↔ ∃ rest : List Char, a.data = "trigger".data ++ rest :=
  strncmp_eq_iff a "trigger" 7 rfl

theorem flagSet_iff (x m : Nat) : flagSet x m = true ↔ x &&& m ≠ 0 := by
  simp [flagSet]

theorem flagSet_false_iff (x m : Nat) : flagSet x m = false ↔ x &&& m = 0 := by
  simp [flagSet]

theorem flagSet_zero_mask (x : Nat) : flagSet x 0 = false := by
  simp [flagSet]

theorem land_ne_zero_left {x m : Nat} (h : x &&& m ≠ 0) : x ≠ 0 := by
  intro hx
  apply h
  rw [hx]
  exact Nat.zero_and m

/-! ## Lemmas on the rule loops -/

theorem faceRuleHit_iff (f : face_t) (r : bfilter_t) :
    faceRuleHit f r = true ↔ RuleMatchesFace r f := by
  unfold faceRuleHit RuleMatchesFace
  cases hact : r.active
  · simp
  · by_cases h1 : r.attr = 1
    · simp [h1, strstr_iff]
    · by_cases h2 : r.attr = 2
      · simp [h2, flagSet_iff]
      · by_cases h5 : r.attr = 5
        · simp [h5, flagSet_iff]
          intro h
          exact land_ne_zero_left h
        · by_cases h6 : r.attr = 6
          · simp [h6, flagSet_iff]
            intro h
            exact land_ne_zero_left h
          · by_cases h7 : r.attr = 7
            · simp [h7, flagSet]
            · simp [h1, h2, h5, h6, h7]

theorem faceRuleLoop_eq_any (f : face_t) (filters : List bfilter_t) :
    faceRuleLoop f filters = filters.any (faceRuleHit f) := by
  induction filters with
  | nil => rfl
  | cons r rs ih =>
    simp only [faceRuleLoop, List.any_cons, ih]
    cases faceRuleHit f r <;> simp

theorem faceRuleLoop_iff (f : face_t) (filters : List bfilter_t) :
    faceRuleLoop f filters = true ↔ ∃ r ∈ filters, RuleMatchesFace r f := by
  rw [faceRuleLoop_eq_any, List.any_eq_true]
  simp only [faceRuleHit_iff]

theorem faceLoop_cons (g_filters : List bfilter_t) (f : face_t) (fs : List face_t)
    (b : Bool) :
    faceLoop g_filters (f :: fs) b
      = (f :: fs).all (fun f => faceRuleLoop f g_filters) := by
  induction fs generalizing f b with
  | nil =>
    simp only [faceLoop, List.all_cons, List.all_nil, Bool.and_true]
    cases faceRuleLoop f g_filters <;> rfl
  | cons f2 fs ih =>
    rw [faceLoop, List.all_cons]
    cases h : faceRuleLoop f g_filters
    · simp
    · simp only [Bool.not_true, Bool.false_eq_true, if_false, Bool.true_and]
      exact ih f2 true

theorem faceLoop_true_iff (g_filters : List bfilter_t) (faces : List face_t) :
    faceLoop g_filters faces false = true
      ↔ faces ≠ [] ∧ ∀ f ∈ faces, ∃ r ∈ g_filters, RuleMatchesFace r f := by
  cases faces with
  | nil => simp [faceLoop]
  | cons f fs =>
    rw [faceLoop_cons, List.all_eq_true]
    simp only [faceRuleLoop_iff, ne_eq, reduceCtorEq, not_false_eq_true, true_and]

theorem patchLoop_eq_any (p : patchMesh_t) (filters : List bfilter_t) :
    patchLoop p filters = !(filters.any (patchRuleHit p)) := by
  induction filters with
  | nil => rfl
  | cons r rs ih =>
    simp only [patchLoop, List.any_cons, ih, patchRuleHit]
    cases h1 : (r.active && r.attr == 1 && strstr p.pShader.getName r.string) <;>
      cases h2 : (r.active && r.attr == 2 && flagSet p.pShader.getFlags r.mask) <;> simp

theorem patchRuleHit_iff (p : patchMesh_t) (r : bfilter_t) :
    patchRuleHit p r = true ↔ RuleMatchesPatch r p := by
  unfold patchRuleHit RuleMatchesPatch
  simp only [Bool.or_eq_true, Bool.and_eq_true, beq_iff_eq, strstr_iff, flagSet_iff]
  tauto

theorem patchLoop_false_iff (p : patchMesh_t) (filters : List bfilter_t) :
    patchLoop p filters = false ↔ ∃ r ∈ filters, RuleMatchesPatch r p := by
  rw [patchLoop_eq_any, Bool.not_eq_false', List.any_eq_true]
  simp only [patchRuleHit_iff]

theorem entityLoop_eq_any (e : eclass_t) (filters : List bfilter_t) :
    entityLoop e filters = !(filters.any (entityRuleHit e)) := by
  induction filters with
  | nil => rfl
  | cons r rs ih =>
    simp only [entityLoop, List.any_cons, ih, entityRuleHit]
    cases r.active <;> by_cases h3 : r.attr = 3 <;> by_cases h4 : r.attr = 4 <;>
      cases strstr e.name r.string <;> cases flagSet e.nShowFlags r.mask <;>
      simp [h3, h4]

theorem entityRuleHit_iff (e : eclass_t) (r : bfilter_t) :
    entityRuleHit e r = true ↔ RuleMatchesEntity r e := by
  unfold entityRuleHit RuleMatchesEntity
  simp only [Bool.or_eq_true, Bool.and_eq_true, beq_iff_eq, strstr_iff, flagSet_iff]
  tauto

theorem entityLoop_false_iff (e : eclass_t) (filters : List bfilter_t) :
    entityLoop e filters = false ↔ ∃ r ∈ filters, RuleMatchesEntity r e := by
  rw [entityLoop_eq_any, Bool.not_eq_false', List.any_eq_true]
  simp only [entityRuleHit_iff]

/-! ## Lemmas on the global toggles -/

theorem land_setBits_apart {x s : Nat} (e : Nat) (h : x &&& s = 0) :
    setBits e s &&& x = e &&& x := by
  apply Nat.eq_of_testBit_eq
  intro i
  have hi := congrArg (fun n => n.testBit i) h
  simp only [Nat.testBit_and, Nat.zero_testBit] at hi
  simp only [setBits, Nat.testBit_and, Nat.testBit_or]
  revert hi
  cases e.testBit i <;> cases x.testBit i <;> cases s.testBit i <;> simp

theorem land_clearBits_apart {x s : Nat} (e : Nat) (h : x &&& s = 0) :
    clearBits e s &&& x = e &&& x := by
  apply Nat.eq_of_testBit_eq
  intro i
  have hi := congrArg (fun n => n.testBit i) h
  simp only [Nat.testBit_and, Nat.zero_testBit] at hi
  simp only [clearBits, Nat.testBit_and, Nat.testBit_xor]
  revert hi
  cases e.testBit i <;> cases x.testBit i <;> cases s.testBit i <;> simp

theorem flagSet_setBits_apart {x s : Nat} (e : Nat) (h : x &&& s = 0) :
    flagSet (setBits e s) x = flagSet (clearBits e s) x := by
  unfold flagSet
  rw [land_setBits_apart e h, land_clearBits_apart e h]

theorem detailsTest_isSome (c : FilterConsts) (g_exclude : Nat) (pb : brush_t)
    (h : pb.patchBrush = true ∨ pb.brush_faces ≠ []) :
    ∃ b, detailsTest c g_exclude pb = some b := by
  unfold detailsTest firstFaceContents
  rcases h with h | h
  · simp [h]
  · cases hf : pb.brush_faces with
    | nil => exact absurd hf h
    | cons f fs => split_ifs <;> simp

theorem structuralTest_isSome (c : FilterConsts) (g_exclude : Nat) (pb : brush_t)
    (h : pb.patchBrush = true ∨ pb.brush_faces ≠ []) :
    ∃ b, structuralTest c g_exclude pb = some b := by
  unfold structuralTest firstFaceContents
  rcases h with h | h
  · simp [h]
  · cases hf : pb.brush_faces with
    | nil => exact absurd hf h
    | cons f fs => split_ifs <;> simp

/-- When no null face pointer can be dereferenced and the rule stages
exclude, `FilterBrush` returns TRUE whatever the toggles are. -/
theorem FilterBrush_of_ruleStages (c : FilterConsts) (g_exclude : Nat)
    (g_filters : List bfilter_t) (pb : brush_t) (owner : entity_t)
    (hown : pb.owner = some owner)
    (hsafe : pb.patchBrush = true ∨ pb.brush_faces ≠ [])
    (hrule : ruleStages g_filters pb owner = true) :
    FilterBrush c g_exclude g_filters pb = some true := by
  obtain ⟨d, hd⟩ := detailsTest_isSome c g_exclude pb hsafe
  obtain ⟨t, ht⟩ := structuralTest_isSome c g_exclude pb hsafe
  unfold FilterBrush
  rw [hown]
  simp only [hd, ht, hrule]
  cases d <;> cases t <;> simp

theorem detailsTest_noToggle (c : FilterConsts) (g_exclude : Nat) (pb : brush_t)
    (h : g_exclude &&& c.EXCLUDE_DETAILS = 0) : detailsTest c g_exclude pb = some false := by
  simp [detailsTest, (flagSet_false_iff _ _).2 h]

theorem structuralTest_noToggle (c : FilterConsts) (g_exclude : Nat) (pb : brush_t)
    (h : g_exclude &&& c.EXCLUDE_STRUCTURAL = 0) :
    structuralTest c g_exclude pb = some false := by
  simp [structuralTest, (flagSet_false_iff _ _).2 h]

/-- With the five toggles off, an owned object that is not force-hidden
gets the verdict of the rule stages. -/
theorem FilterBrush_noToggle (c : FilterConsts) (g_exclude : Nat)
    (g_filters : List bfilter_t) (pb : brush_t) (owner : entity_t)
    (hown : pb.owner = some owner) (hvis : pb.hiddenBrush = false)
    (htog : NoToggle c g_exclude) :
    FilterBrush c g_exclude g_filters pb = some (ruleStages g_filters pb owner) := by
  obtain ⟨hw, he, hc, hd, hs⟩ := htog
  unfold FilterBrush
  rw [hown]
  simp only [hvis, (flagSet_false_iff _ _).2 hw, (flagSet_false_iff _ _).2 he,
    (flagSet_false_iff _ _).2 hc, detailsTest_noToggle c g_exclude pb hd,
    structuralTest_noToggle c g_exclude pb hs]
  simp

theorem faceStageClass_iff (name : String) :
    (strcmp_eq name "worldspawn" || strncmp_eq name "func" 4
      || strncmp_eq name "trigger" 7) = true ↔ FaceStageClass name := by
  simp only [Bool.or_eq_true, strcmp_eq_iff, strncmp_func_iff, strncmp_trigger_iff,
    FaceStageClass, or_assoc]

theorem structuralTest_unaffected (c : FilterConsts) (g_exclude : Nat) (pb : brush_t)
    (h : pb.patchBrush = true ∨ ∃ contents, firstFaceContents pb = some contents
      ∧ contents &&& c.CONTENTS_DETAIL ≠ 0) :
    structuralTest c g_exclude pb = some false := by
  unfold structuralTest
  rcases h with h | ⟨contents, h1, h2⟩
  · simp [h]
  · simp only [h1, (flagSet_iff _ _).2 h2]
    split_ifs <;> rfl

theorem detailsTest_setBits_clearBits (c : FilterConsts) (g_exclude : Nat) (pb : brush_t)
    (h : c.EXCLUDE_DETAILS &&& c.EXCLUDE_STRUCTURAL = 0) :
    detailsTest c (setBits g_exclude c.EXCLUDE_STRUCTURAL) pb
      = detailsTest c (clearBits g_exclude c.EXCLUDE_STRUCTURAL) pb := by
  unfold detailsTest
  rw [flagSet_setBits_apart g_exclude h]

/-! ## Lemmas on the rule list construction -/

theorem FilterListDelete_eq_nil (pFilter : List bfilter_t) : FilterListDelete pFilter = [] := by
  cases pFilter <;> rfl

theorem FilterAdd_length (pNew : bfilter_t) (g_exclude : Nat) (pFilter : List bfilter_t)
    (type : Int) (bmask : Nat) (str : String) (exclude : Nat) :
    (FilterAdd pNew g_exclude pFilter type bmask str exclude).length = pFilter.length + 1 := by
  simp [FilterAdd]

theorem FilterUpdate_length (c : FilterConsts) (alloc : Nat → bfilter_t) (g_exclude : Nat)
    (pFilter : List bfilter_t) :
    (FilterUpdate c alloc g_exclude pFilter).length = pFilter.length + 15 := by
  simp only [FilterUpdate, FilterAdd_length]

theorem rebuild_length (c : FilterConsts) (alloc : Nat → bfilter_t) (g_exclude : Nat)
    (pFilter : List bfilter_t) : (rebuild c alloc g_exclude pFilter).length = 15 := by
  rw [rebuild, FilterUpdate_length, FilterListDelete_eq_nil]
  rfl

theorem allBitsSet_land (b : Nat) (h : b < 2 ^ 32) : allBitsSet &&& b = b := by
  rw [Nat.and_comm, allBitsSet, Nat.and_pow_two_sub_one_eq_mod, Nat.mod_eq_of_lt h]

theorem FilterAdd_active (pNew : bfilter_t) (g_exclude : Nat) (pFilter : List bfilter_t)
    (type : Int) (bmask : Nat) (str : String) (exclude : Nat) :
    (FilterAdd pNew g_exclude pFilter type bmask str exclude).map (fun r => r.active)
      = decide (g_exclude &&& exclude ≠ 0) :: pFilter.map (fun r => r.active) := by
  unfold FilterAdd
  cases h : flagSet g_exclude exclude
  · have h0 := (flagSet_false_iff _ _).1 h
    simp [h0]
  · have h0 := (flagSet_iff _ _).1 h
    simp [h0]

theorem FilterUpdate_active (c : FilterConsts) (alloc : Nat → bfilter_t) (g_exclude : Nat)
    (pFilter : List bfilter_t) :
    (FilterUpdate c alloc g_exclude pFilter).map (fun r => r.active)
      = c.ruleBits.reverse.map (fun bit => decide (g_exclude &&& bit ≠ 0))
        ++ pFilter.map (fun r => r.active) := by
  simp only [FilterUpdate, FilterAdd_active, FilterConsts.ruleBits]
  rfl

/-! ## The verdict depends on the rule list only through the three "some rule hits" tests -/

theorem any_perm {α : Type} (p : α → Bool) {l l2 : List α} (h : l.Perm l2) :
    l.any p = l2.any p := by
  rw [Bool.eq_iff_iff, List.any_eq_true, List.any_eq_true]
  constructor
  · rintro ⟨x, hx, hp⟩; exact ⟨x, h.mem_iff.1 hx, hp⟩
  · rintro ⟨x, hx, hp⟩; exact ⟨x, h.mem_iff.2 hx, hp⟩

theorem any_remove_of_false {α : Type} (p : α → Bool) (l1 l2 : List α) (x : α)
    (hx : p x = false) : (l1 ++ x :: l2).any p = (l1 ++ l2).any p := by
  simp [List.any_append, hx]

theorem faceLoop_congr (l l2 : List bfilter_t) (faces : List face_t) (b : Bool)
    (h : ∀ f, l.any (faceRuleHit f) = l2.any (faceRuleHit f)) :
    faceLoop l faces b = faceLoop l2 faces b := by
  cases faces with
  | nil => rfl
  | cons f fs =>
    rw [faceLoop_cons, faceLoop_cons]
    simp only [faceRuleLoop_eq_any, h]

theorem ruleStages_congr (l l2 : List bfilter_t) (pb : brush_t) (owner : entity_t)
    (hf : ∀ f, l.any (faceRuleHit f) = l2.any (faceRuleHit f))
    (hp : ∀ p, l.any (patchRuleHit p) = l2.any (patchRuleHit p))
    (he : ∀ e, l.any (entityRuleHit e) = l2.any (entityRuleHit e)) :
    ruleStages l pb owner = ruleStages l2 pb owner := by
  unfold ruleStages
  rw [faceLoop_congr l l2 pb.brush_faces false hf, patchLoop_eq_any, patchLoop_eq_any,
    entityLoop_eq_any, entityLoop_eq_any, hp, he]

theorem FilterBrush_congr (c : FilterConsts) (g_exclude : Nat) (l l2 : List bfilter_t)
    (pb : brush_t)
    (hf : ∀ f, l.any (faceRuleHit f) = l2.any (faceRuleHit f))
    (hp : ∀ p, l.any (patchRuleHit p) = l2.any (patchRuleHit p))
    (he : ∀ e, l.any (entityRuleHit e) = l2.any (entityRuleHit e)) :
    FilterBrush c g_exclude l pb = FilterBrush c g_exclude l2 pb := by
  unfold FilterBrush
  cases pb.owner with
  | none => rfl
  | some owner =>
    simp only [ruleStages_congr l l2 pb owner hf hp he]

theorem zeroMask_no_hit (r : bfilter_t) (hmask : r.mask = 0)
    (hattr : r.attr = 2 ∨ r.attr = 4 ∨ r.attr = 5 ∨ r.attr = 6) :
    (∀ f, faceRuleHit f r = false) ∧ (∀ p, patchRuleHit p r = false)
      ∧ (∀ e, entityRuleHit e r = false) := by
  refine ⟨fun f => ?_, fun p => ?_, fun e => ?_⟩
  · unfold faceRuleHit
    rcases hattr with h | h | h | h <;> simp [h, hmask, flagSet_zero_mask]
  · unfold patchRuleHit
    rcases hattr with h | h | h | h <;> simp [h, hmask, flagSet_zero_mask]
  · unfold entityRuleHit
    rcases hattr with h | h | h | h <;> simp [h, hmask, flagSet_zero_mask]

/-- The patch stage excludes an owned patch as soon as one rule hits. -/
theorem FilterBrush_patch_hit (c : FilterConsts) (g_exclude : Nat)
    (g_filters : List bfilter_t) (pb : brush_t) (owner : entity_t)
    (hown : pb.owner = some owner) (hpatch : pb.patchBrush = true)
    (hrule : ∃ r ∈ g_filters, RuleMatchesPatch r pb.pPatch) :
    FilterBrush c g_exclude g_filters pb = some true := by
  apply FilterBrush_of_ruleStages c g_exclude g_filters pb owner hown (Or.inl hpatch)
  unfold ruleStages
  simp [hpatch, (patchLoop_false_iff _ _).2 hrule]

theorem FilterBrush_eq_early_late (c : FilterConsts) (g_exclude : Nat)
    (g_filters : List bfilter_t) (pb : brush_t) (owner : entity_t)
    (hown : pb.owner = some owner) :
    FilterBrush c g_exclude g_filters pb
      = if earlyHit c g_exclude pb owner then some true
        else lateStages c g_exclude g_filters pb owner := by
  unfold FilterBrush earlyHit lateStages
  rw [hown]
  dsimp only
  generalize (match detailsTest c g_exclude pb with
    | none => none
    | some true => some true
    | some false =>
      match structuralTest c g_exclude pb with
      | none => none
      | some true => some true
      | some false => some (ruleStages g_filters pb owner)) = late
  generalize pb.hiddenBrush = b1
  generalize flagSet g_exclude c.EXCLUDE_WORLD = b2
  generalize flagSet g_exclude c.EXCLUDE_ENT = b3
  generalize flagSet g_exclude c.EXCLUDE_CURVES = b4
  generalize strcmp_eq owner.eclass.name "worldspawn" = b5
  generalize strcmp_eq owner.eclass.name "func_group" = b6
  generalize pb.patchBrush = b7
  cases b1 <;> cases b2 <;> cases b3 <;> cases b4 <;> cases b5 <;> cases b6 <;>
    cases b7 <;> rfl

theorem FilterBrush_early (c : FilterConsts) (g_exclude : Nat)
    (g_filters : List bfilter_t) (pb : brush_t) (owner : entity_t)
    (hown : pb.owner = some owner) (h : earlyHit c g_exclude pb owner = true) :
    FilterBrush c g_exclude g_filters pb = some true := by
  rw [FilterBrush_eq_early_late c g_exclude g_filters pb owner hown, h]
  rfl

theorem worldClass_iff (name : String) :
    (strcmp_eq name "worldspawn" || strcmp_eq name "func_group") = true
      ↔ WorldClass name := by
  simp only [Bool.or_eq_true, strcmp_eq_iff, WorldClass]

theorem detailsTest_isSome_of_safe (c : FilterConsts) (g_exclude : Nat) (pb : brush_t)
    (h : FacesSafe c g_exclude pb) : ∃ b, detailsTest c g_exclude pb = some b := by
  rcases h with h | h | ⟨h, _⟩
  · exact detailsTest_isSome c g_exclude pb (Or.inl h)
  · exact detailsTest_isSome c g_exclude pb (Or.inr h)
  · exact ⟨false, detailsTest_noToggle c g_exclude pb h⟩

theorem structuralTest_isSome_of_safe (c : FilterConsts) (g_exclude : Nat) (pb : brush_t)
    (h : FacesSafe c g_exclude pb) : ∃ b, structuralTest c g_exclude pb = some b := by
  rcases h with h | h | ⟨_, h⟩
  · exact structuralTest_isSome c g_exclude pb (Or.inl h)
  · exact structuralTest_isSome c g_exclude pb (Or.inr h)
  · exact ⟨false, structuralTest_noToggle c g_exclude pb h⟩

/-- When the evaluation meets no null face pointer and the rule stages
exclude, `FilterBrush` returns TRUE. -/
theorem FilterBrush_of_ruleStages_safe (c : FilterConsts) (g_exclude : Nat)
    (g_filters : List bfilter_t) (pb : brush_t) (owner : entity_t)
    (hown : pb.owner = some owner) (hsafe : FacesSafe c g_exclude pb)
    (hrule : ruleStages g_filters pb owner = true) :
    FilterBrush c g_exclude g_filters pb = some true := by
  obtain ⟨d, hd⟩ := detailsTest_isSome_of_safe c g_exclude pb hsafe
  obtain ⟨t, ht⟩ := structuralTest_isSome_of_safe c g_exclude pb hsafe
  unfold FilterBrush
  rw [hown]
  simp only [hd, ht, hrule]
  cases d <;> cases t <;> simp

theorem ruleStages_of_entity_hit (g_filters : List bfilter_t) (pb : brush_t)
    (owner : entity_t) (hnotworld : owner.eclass.name ≠ "worldspawn")
    (hrule : ∃ r ∈ g_filters, RuleMatchesEntity r owner.eclass) :
    ruleStages g_filters pb owner = true := by
  have hent : entityLoop owner.eclass g_filters = false :=
    (entityLoop_false_iff _ _).2 hrule
  have hname : strcmp_eq owner.eclass.name "worldspawn" = false := by
    rw [← Bool.not_eq_true, strcmp_eq_iff]
    exact hnotworld
  unfold ruleStages
  simp [hent, hname]

theorem FilterAdd_append (pNew : bfilter_t) (g_exclude : Nat) (l1 l2 : List bfilter_t)
    (type : Int) (bmask : Nat) (str : String) (exclude : Nat) :
    FilterAdd pNew g_exclude (l1 ++ l2) type bmask str exclude
      = FilterAdd pNew g_exclude l1 type bmask str exclude ++ l2 := by
  simp [FilterAdd]

theorem FilterUpdate_append (c : FilterConsts) (alloc : Nat → bfilter_t) (g_exclude : Nat)
    (pFilter : List bfilter_t) :
    FilterUpdate c alloc g_exclude pFilter = FilterUpdate c alloc g_exclude [] ++ pFilter := by
  have h : pFilter = [] ++ pFilter := rfl
  conv_lhs => rw [h]
  simp only [FilterUpdate, FilterAdd_append]

theorem FilterAdd_payload (pNew : bfilter_t) (g_exclude : Nat) (pFilter : List bfilter_t)
    (type : Int) (bmask : Nat) (str : String) (exclude : Nat)
    (h : type = 1 ∨ type = 2 ∨ type = 3 ∨ type = 4) :
    (FilterAdd pNew g_exclude pFilter type bmask str exclude).map (fun r => (r.attr, payload r))
      = (type, if type = 1 ∨ type = 3 then Sum.inl str else Sum.inr bmask)
        :: pFilter.map (fun r => (r.attr, payload r)) := by
  unfold FilterAdd payload
  rcases h with h | h | h | h <;> subst h <;> cases flagSet g_exclude exclude <;> simp

theorem unknownAttr_no_hit (r : bfilter_t) (hattr : r.attr < 1 ∨ 7 < r.attr) :
    (∀ f, faceRuleHit f r = false) ∧ (∀ p, patchRuleHit p r = false)
      ∧ (∀ e, entityRuleHit e r = false) := by
  have h1 : r.attr ≠ 1 := by omega
  have h2 : r.attr ≠ 2 := by omega
  have h3 : r.attr ≠ 3 := by omega
  have h4 : r.attr ≠ 4 := by omega
  have h5 : r.attr ≠ 5 := by omega
  have h6 : r.attr ≠ 6 := by omega
  have h7 : r.attr ≠ 7 := by omega
  refine ⟨fun f => ?_, fun p => ?_, fun e => ?_⟩
  · unfold faceRuleHit
    simp [h1, h2, h5, h6, h7]
  · unfold patchRuleHit
    simp [h1, h2]
  · unfold entityRuleHit
    simp [h3, h4]

theorem inactive_no_hit (r : bfilter_t) (hact : r.active = false) :
    (∀ f, faceRuleHit f r = false) ∧ (∀ p, patchRuleHit p r = false)
      ∧ (∀ e, entityRuleHit e r = false) := by
  refine ⟨fun f => ?_, fun p => ?_, fun e => ?_⟩
  · unfold faceRuleHit
    simp [hact]
  · unfold patchRuleHit
    simp [hact]
  · unfold entityRuleHit
    simp [hact]

theorem any_false_of_forall {α : Type} (p : α → Bool) (l : List α)
    (h : ∀ x ∈ l, p x = false) : l.any p = false := by
  rw [← Bool.not_eq_true, List.any_eq_true]
  rintro ⟨x, hx, hp⟩
  rw [h x hx] at hp
  exact absurd hp (by decide)

theorem ruleStages_nil (pb : brush_t) (owner : entity_t) : ruleStages [] pb owner = false := by
  have hloop : faceLoop [] pb.brush_faces false = false := by
    rw [← Bool.not_eq_true, faceLoop_true_iff]
    rintro ⟨hne, hall⟩
    cases hf : pb.brush_faces with
    | nil => exact hne hf
    | cons f fs =>
      obtain ⟨r, hr, _⟩ := hall f (by rw [hf]; simp)
      simp at hr
  unfold ruleStages
  simp [hloop, patchLoop, entityLoop]

/-- A solid faceless brush of "worldspawn" passes every rule stage. -/
theorem ruleStages_faceless_world (g_filters : List bfilter_t) (pb : brush_t)
    (owner : entity_t) (hworld : owner.eclass.name = "worldspawn")
    (hsolid : pb.patchBrush = false) (hfaces : pb.brush_faces = []) :
    ruleStages g_filters pb owner = false := by
  have hname : strcmp_eq owner.eclass.name "worldspawn" = true :=
    (strcmp_eq_iff _ _).2 hworld
  unfold ruleStages
  simp [hname, hsolid, hfaces, faceLoop]

/-! ## Monotonicity in what is switched on -/

theorem RulesSwitchedOn_refl (l : List bfilter_t) : RulesSwitchedOn l l := by
  induction l with
  | nil => exact RulesSwitchedOn.nil
  | cons r rs ih => exact RulesSwitchedOn.keep r ih

theorem BitsInclude_refl (e : Nat) : BitsInclude e e := Nat.and_self e

theorem flagSet_mono {e e2 : Nat} (h : BitsInclude e e2) (x : Nat)
    (hx : flagSet e x = true) : flagSet e2 x = true := by
  rw [flagSet_iff] at hx ⊢
  intro h0
  apply hx
  unfold BitsInclude at h
  rw [← h, Nat.and_assoc, h0, Nat.and_zero]

theorem faceRuleHit_activate (f : face_t) (r : bfilter_t) (h : faceRuleHit f r = true) :
    faceRuleHit f { r with active := true } = true := by
  obtain ⟨a, m, str, act⟩ := r
  cases act
  · simp [faceRuleHit] at h
  · exact h

theorem patchRuleHit_activate (p : patchMesh_t) (r : bfilter_t)
    (h : patchRuleHit p r = true) : patchRuleHit p { r with active := true } = true := by
  obtain ⟨a, m, str, act⟩ := r
  cases act
  · simp [patchRuleHit] at h
  · exact h

theorem entityRuleHit_activate (e : eclass_t) (r : bfilter_t)
    (h : entityRuleHit e r = true) : entityRuleHit e { r with active := true } = true := by
  obtain ⟨a, m, str, act⟩ := r
  cases act
  · simp [entityRuleHit] at h
  · exact h

theorem any_switchedOn (hit : bfilter_t → Bool)
    (hmono : ∀ r, hit r = true → hit { r with active := true } = true)
    {l l2 : List bfilter_t} (h : RulesSwitchedOn l l2) (hl : l.any hit = true) :
    l2.any hit = true := by
  induction h with
  | nil => exact hl
  | keep r _ ih =>
    rw [List.any_cons, Bool.or_eq_true] at hl ⊢
    exact hl.imp id ih
  | activate r _ ih =>
    rw [List.any_cons, Bool.or_eq_true] at hl ⊢
    exact hl.imp (hmono r) ih
  | insert r _ ih =>
    rw [List.any_cons, Bool.or_eq_true]
    exact Or.inr (ih hl)

theorem faceLoop_switchedOn {l l2 : List bfilter_t} (h : RulesSwitchedOn l l2)
    (faces : List face_t) (hl : faceLoop l faces false = true) :
    faceLoop l2 faces false = true := by
  cases faces with
  | nil => exact hl
  | cons f fs =>
    rw [faceLoop_cons, List.all_eq_true] at hl ⊢
    intro x hx
    have hx1 := hl x hx
    rw [faceRuleLoop_eq_any] at hx1 ⊢
    exact any_switchedOn _ (faceRuleHit_activate x) h hx1

theorem ruleStages_switchedOn {l l2 : List bfilter_t} (h : RulesSwitchedOn l l2)
    (pb : brush_t) (owner : entity_t) (hl : ruleStages l pb owner = true) :
    ruleStages l2 pb owner = true := by
  unfold ruleStages at hl ⊢
  have hface := faceLoop_switchedOn h pb.brush_faces
  have hpatch : patchLoop pb.pPatch l = false → patchLoop pb.pPatch l2 = false := by
    rw [patchLoop_eq_any, patchLoop_eq_any, Bool.not_eq_false', Bool.not_eq_false']
    exact any_switchedOn _ (patchRuleHit_activate pb.pPatch) h
  have hent : entityLoop owner.eclass l = false → entityLoop owner.eclass l2 = false := by
    rw [entityLoop_eq_any, entityLoop_eq_any, Bool.not_eq_false', Bool.not_eq_false']
    exact any_switchedOn _ (entityRuleHit_activate owner.eclass) h
  revert hl hface hpatch hent
  generalize faceLoop l pb.brush_faces false = a1
  generalize faceLoop l2 pb.brush_faces false = a2
  generalize patchLoop pb.pPatch l = p1
  generalize patchLoop pb.pPatch l2 = p2
  generalize entityLoop owner.eclass l = e1
  generalize entityLoop owner.eclass l2 = e2
  generalize (strcmp_eq owner.eclass.name "worldspawn"
    || strncmp_eq owner.eclass.name "func" 4
    || strncmp_eq owner.eclass.name "trigger" 7) = cls
  generalize strcmp_eq owner.eclass.name "worldspawn" = w
  generalize pb.patchBrush = pt
  cases a1 <;> cases a2 <;> cases p1 <;> cases p2 <;> cases e1 <;> cases e2 <;>
    cases cls <;> cases w <;> cases pt <;> simp

theorem earlyHit_mono (c : FilterConsts) {e e2 : Nat} (h : BitsInclude e e2) (pb : brush_t)
    (owner : entity_t) (he : earlyHit c e pb owner = true) :
    earlyHit c e2 pb owner = true := by
  unfold earlyHit at he ⊢
  have hw := flagSet_mono h c.EXCLUDE_WORLD
  have hn := flagSet_mono h c.EXCLUDE_ENT
  have hc := flagSet_mono h c.EXCLUDE_CURVES
  revert he hw hn hc
  generalize flagSet e c.EXCLUDE_WORLD = w1
  generalize flagSet e2 c.EXCLUDE_WORLD = w2
  generalize flagSet e c.EXCLUDE_ENT = n1
  generalize flagSet e2 c.EXCLUDE_ENT = n2
  generalize flagSet e c.EXCLUDE_CURVES = c1
  generalize flagSet e2 c.EXCLUDE_CURVES = c2
  generalize strcmp_eq owner.eclass.name "worldspawn" = a
  generalize strcmp_eq owner.eclass.name "func_group" = b
  generalize pb.hiddenBrush = hd
  generalize pb.patchBrush = pt
  cases w1 <;> cases w2 <;> cases n1 <;> cases n2 <;> cases c1 <;> cases c2 <;>
    cases a <;> cases b <;> cases hd <;> cases pt <;> simp

theorem lateStages_mono (c : FilterConsts) {e e2 : Nat} (h : BitsInclude e e2)
    (l l2 : List bfilter_t) (pb : brush_t) (owner : entity_t)
    (hR : ruleStages l pb owner = true → ruleStages l2 pb owner = true)
    (hl : lateStages c e l pb owner = some true) :
    lateStages c e2 l2 pb owner ≠ some false
      ∧ (FacesSafe c e2 pb → lateStages c e2 l2 pb owner = some true) := by
  have hD := flagSet_mono h c.EXCLUDE_DETAILS
  have hS := flagSet_mono h c.EXCLUDE_STRUCTURAL
  unfold FacesSafe
  rw [← flagSet_false_iff, ← flagSet_false_iff]
  unfold lateStages detailsTest structuralTest firstFaceContents at hl ⊢
  revert hl hR hD hS
  generalize flagSet e c.EXCLUDE_DETAILS = d1
  generalize flagSet e2 c.EXCLUDE_DETAILS = d2
  generalize flagSet e c.EXCLUDE_STRUCTURAL = s1
  generalize flagSet e2 c.EXCLUDE_STRUCTURAL = s2
  generalize ruleStages l pb owner = r1
  generalize ruleStages l2 pb owner = r2
  cases hf : pb.brush_faces with
  | nil =>
    generalize pb.patchBrush = pt
    cases d1 <;> cases d2 <;> cases s1 <;> cases s2 <;> cases r1 <;> cases r2 <;>
      cases pt <;> simp
  | cons f fs =>
    dsimp only
    generalize flagSet f.texdef.contents c.CONTENTS_DETAIL = det
    generalize pb.patchBrush = pt
    cases d1 <;> cases d2 <;> cases s1 <;> cases s2 <;> cases r1 <;> cases r2 <;>
      cases pt <;> cases det <;> simp

theorem lateStages_rules_mono (c : FilterConsts) (e : Nat) (l l2 : List bfilter_t)
    (pb : brush_t) (owner : entity_t)
    (hR : ruleStages l pb owner = true → ruleStages l2 pb owner = true)
    (hl : lateStages c e l pb owner = some true) :
    lateStages c e l2 pb owner = some true := by
  unfold lateStages at hl ⊢
  revert hl hR
  generalize ruleStages l pb owner = r1
  generalize ruleStages l2 pb owner = r2
  generalize detailsTest c e pb = d
  generalize structuralTest c e pb = t
  cases r1 <;> cases r2 <;> rcases d with _ | _ | _ <;> rcases t with _ | _ | _ <;> simp

/-- With the bit set held fixed, switching rules on keeps the verdict TRUE,
for every object. -/
theorem FilterBrush_rules_mono (c : FilterConsts) (e : Nat) {l l2 : List bfilter_t}
    (pb : brush_t) (hrules : RulesSwitchedOn l l2)
    (htrue : FilterBrush c e l pb = some true) : FilterBrush c e l2 pb = some true := by
  cases hown : pb.owner with
  | none =>
    unfold FilterBrush at htrue
    rw [hown] at htrue
    simp at htrue
  | some owner =>
    rw [FilterBrush_eq_early_late c e l pb owner hown] at htrue
    rw [FilterBrush_eq_early_late c e l2 pb owner hown]
    cases he : earlyHit c e pb owner with
    | true => rfl
    | false =>
      rw [he] at htrue
      exact lateStages_rules_mono c e l l2 pb owner (ruleStages_switchedOn hrules pb owner)
        htrue

/-- Switching more on never turns TRUE into FALSE, and gives TRUE again when
the evaluation meets no null face pointer. -/
theorem FilterBrush_mono (c : FilterConsts) {e e2 : Nat} {l l2 : List bfilter_t}
    (pb : brush_t) (hrules : RulesSwitchedOn l l2) (hbits : BitsInclude e e2)
    (htrue : FilterBrush c e l pb = some true) :
    FilterBrush c e2 l2 pb ≠ some false
      ∧ (FacesSafe c e2 pb → FilterBrush c e2 l2 pb = some true) := by
  cases hown : pb.owner with
  | none =>
    unfold FilterBrush at htrue
    rw [hown] at htrue
    simp at htrue
  | some owner =>
    rw [FilterBrush_eq_early_late c e l pb owner hown] at htrue
    rw [FilterBrush_eq_early_late c e2 l2 pb owner hown]
    cases he : earlyHit c e pb owner with
    | true =>
      rw [earlyHit_mono c hbits pb owner he]
      simp
    | false =>
      rw [he] at htrue
      have hlate := lateStages_mono c hbits l l2 pb owner
        (ruleStages_switchedOn hrules pb owner) htrue
      cases earlyHit c e2 pb owner with
      | true => simp
      | false => exact hlate

/-! ## Lemmas on the plugin command name -/

theorem camelLoop_eq (p : List Char) (wasspace : Bool) (before : Option Char)
    (str : List Char) (h : wasspace = true ↔ before = some ' ') :
    camelLoop p wasspace str
      = str ++ (List.zip (before :: p.map some) p).filterMap
          (fun pc => camelStep pc.1 pc.2) := by
  induction p generalizing wasspace before str with
  | nil => simp [camelLoop]
  | cons ch p ih =>
    simp only [List.map_cons, List.zip_cons_cons, camelLoop, List.filterMap_cons]
    by_cases hsp : ch = ' '
    · rw [ih true (some ch) str (by simp [hsp])]
      simp [hsp, camelStep]
    · have hne : (ch == ' ') = false := by simp [hsp]
      simp only [hne, Bool.false_eq_true, if_false]
      cases wasspace with
      | true =>
        have hb : before = some ' ' := h.1 rfl
        simp only [if_true]
        rw [ih false (some ch) _ (by simp [hsp])]
        simp [camelStep, hsp, hb]
      | false =>
        have hb : before ≠ some ' ' := fun hb => by
          have := h.2 hb
          exact absurd this (by decide)
        simp only [Bool.false_eq_true, if_false]
        rw [ih false (some ch) _ (by simp [hsp])]
        simp [camelStep, hsp, hb]

theorem camelLoop_eq_spec (cmd str : List Char) :
    camelLoop cmd false str = str ++ camelSpec cmd :=
  camelLoop_eq cmd false none str (by simp)

theorem delTrailingPeriods_spec (fuel : Nat) (str : List Char) (hfuel : str.length ≤ fuel) :
    ∃ k, str = delTrailingPeriods fuel str ++ List.replicate k '.'
      ∧ (delTrailingPeriods fuel str).getLast? ≠ some '.' := by
  induction fuel generalizing str with
  | zero =>
    have hnil : str = [] := List.length_eq_zero.1 (Nat.le_zero.1 hfuel)
    subst hnil
    exact ⟨0, by simp [delTrailingPeriods], by simp [delTrailingPeriods]⟩
  | succ n ih =>
    rw [delTrailingPeriods]
    by_cases hlast : str.getLast? = some '.'
    · have hne : str ≠ [] := by
        intro h0
        rw [h0] at hlast
        simp at hlast
      have hsplit : str.dropLast ++ ['.'] = str :=
        List.dropLast_append_getLast? '.' (by simp [hlast])
      have hlen : str.dropLast.length ≤ n := by
        rw [List.length_dropLast]
        omega
      obtain ⟨k, hk, hend⟩ := ih str.dropLast hlen
      have hcond : (!str.isEmpty && str.getLast? == some '.') = true := by
        simp [hlast, List.isEmpty_iff, hne]
      rw [if_pos hcond]
      refine ⟨k + 1, ?_, hend⟩
      rw [List.replicate_succ', ← List.append_assoc, ← hk, hsplit]
    · have hcond : ¬ (!str.isEmpty && str.getLast? == some '.') = true := by
        simp [hlast]
      rw [if_neg hcond]
      exact ⟨0, by simp, hlast⟩

theorem ofNat_upper_ne_space (n : Nat) (h1 : 97 ≤ n) (h2 : n ≤ 122) :
    Char.ofNat (n - 32) ≠ ' ' := by
  interval_cases n <;> decide

theorem ofNat_lower_ne_space (n : Nat) (h1 : 65 ≤ n) (h2 : n ≤ 90) :
    Char.ofNat (n + 32) ≠ ' ' := by
  interval_cases n <;> decide

theorem toUpper_ne_space (ch : Char) (h : ch ≠ ' ') : ch.toUpper ≠ ' ' := by
  unfold Char.toUpper
  dsimp only
  split_ifs with hr
  · exact ofNat_upper_ne_space _ hr.1 hr.2
  · exact h

theorem toLower_ne_space (ch : Char) (h : ch ≠ ' ') : ch.toLower ≠ ' ' := by
  unfold Char.toLower
  dsimp only
  split_ifs with hr
  · exact ofNat_lower_ne_space _ hr.1 hr.2
  · exact h

theorem camelStep_ne_space (before : Option Char) (ch x : Char)
    (h : camelStep before ch = some x) : x ≠ ' ' := by
  unfold camelStep at h
  split_ifs at h with h1 h2
  · rw [← Option.some.inj h]
    exact toUpper_ne_space ch h1
  · rw [← Option.some.inj h]
    exact h1

theorem camelSpec_no_space (cmd : List Char) : ∀ ch ∈ camelSpec cmd, ch ≠ ' ' := by
  intro ch hch
  unfold camelSpec at hch
  rw [List.mem_filterMap] at hch
  obtain ⟨pc, _, hpc⟩ := hch
  exact camelStep_ne_space pc.1 pc.2 ch hpc

theorem lowerFirst_no_space (str : List Char) (h : ∀ ch ∈ str, ch ≠ ' ') :
    ∀ ch ∈ lowerFirst str, ch ≠ ' ' := by
  cases str with
  | nil => simp [lowerFirst]
  | cons a rest =>
    intro ch hch
    simp only [lowerFirst, List.mem_cons] at hch
    rcases hch with hch | hch
    · rw [hch]
      exact toLower_ne_space a (h a (by simp))
    · exact h ch (by simp [hch])

theorem string_equal_prefix_nocase_iff (s pre : String) :
    string_equal_prefix_nocase s pre = true ↔ StartsNoCase s pre := by
  unfold string_equal_prefix_nocase StartsNoCase
  rw [beq_iff_eq]
  constructor
  · intro h
    refine ⟨(s.data.drop pre.data.length).map Char.toLower, ?_⟩
    rw [← h, ← List.map_append, List.take_append_drop]
  · rintro ⟨rest, h⟩
    rw [List.map_take, h]
    have hlen : pre.data.length = (pre.data.map Char.toLower).length := by simp
    rw [hlen, List.take_left]

/-- The buffer of `plugin_construct_command_name` before the trailing
periods are deleted. -/
theorem plugin_construct_command_name_data (pluginName commandName : String) :
    (plugin_construct_command_name pluginName commandName).data
      = lowerFirst (delTrailingPeriods
          (namePrefixPart pluginName commandName ++ camelSpec commandName.data).length
          (namePrefixPart pluginName commandName ++ camelSpec commandName.data)) := by
  unfold plugin_construct_command_name namePrefixPart
  cases string_equal_prefix_nocase commandName pluginName <;>
    simp [camelLoop_eq_spec]

theorem plugin_construct_command_name_eval :
    plugin_construct_command_name "bobToolz" "Brush  cleanup..." = "bobToolz::BrushCleanup"
      ∧ plugin_construct_command_name "Sunplug" "sunPlug about ." = "sunPlugAbout"
      ∧ plugin_construct_command_name "Sunplug" "About" = "sunplug::About"
      ∧ plugin_construct_command_name "" "..." = "" := by
  decide

/-! ## The claims -/

/-- C1: a solid brush that has an owner of class "worldspawn", "func..." or
"trigger...", and at least one face, is excluded (FilterBrush returns true)
whenever every face is matched by at least one active rule, for every rule
list and every exclusion bit set. -/
theorem C1_every_face_matched_excluded (c : FilterConsts) (g_exclude : Nat)
    (g_filters : List bfilter_t) (pb : brush_t) (owner : entity_t)
    (hown : pb.owner = some owner) (hsolid : pb.patchBrush = false)
    (hclass : FaceStageClass owner.eclass.name) (hfaces : pb.brush_faces ≠ [])
    (hall : ∀ f ∈ pb.brush_faces, ∃ r ∈ g_filters, RuleMatchesFace r f) :
    FilterBrush c g_exclude g_filters pb = some true := by
  apply FilterBrush_of_ruleStages c g_exclude g_filters pb owner hown (Or.inr hfaces)
  unfold ruleStages
  rw [(faceStageClass_iff _).2 hclass, hsolid, (faceLoop_true_iff _ _).2 ⟨hfaces, hall⟩]
  rfl

/-- C1 at the caulk brush with an active TextureName rule "caulk". -/
theorem C1_witness :
    FilterBrush sampleConsts 0 [textureRule "caulk" true] caulkBrush = some true :=
  C1_every_face_matched_excluded sampleConsts 0 [textureRule "caulk" true] caulkBrush
    worldspawn rfl rfl (Or.inl rfl) (by decide)
    (by
      intro f hf
      refine ⟨textureRule "caulk" true, by simp, ?_⟩
      rw [← faceRuleHit_iff]
      revert f
      decide)

/-- C2: a solid brush of "worldspawn" that is not force-hidden, evaluated
with none of the five toggle bits set, is not excluded (FilterBrush returns
false) as soon as one of its faces, wherever it sits, is matched by no
active rule. -/
theorem C2_unmatched_face_not_excluded (c : FilterConsts) (g_exclude : Nat)
    (g_filters : List bfilter_t) (pb : brush_t) (owner : entity_t)
    (hown : pb.owner = some owner) (hworld : owner.eclass.name = "worldspawn")
    (hsolid : pb.patchBrush = false) (hvis : pb.hiddenBrush = false)
    (htog : NoToggle c g_exclude)
    (hface : ∃ f ∈ pb.brush_faces, ∀ r ∈ g_filters, ¬ RuleMatchesFace r f) :
    FilterBrush c g_exclude g_filters pb = some false := by
  rw [FilterBrush_noToggle c g_exclude g_filters pb owner hown hvis htog]
  have hloop : faceLoop g_filters pb.brush_faces false = false := by
    rw [← Bool.not_eq_true, faceLoop_true_iff]
    rintro ⟨_, hall⟩
    obtain ⟨f, hf, hno⟩ := hface
    obtain ⟨r, hr, hm⟩ := hall f hf
    exact hno r hr hm
  have hname : strcmp_eq owner.eclass.name "worldspawn" = true :=
    (strcmp_eq_iff _ _).2 hworld
  unfold ruleStages
  simp [hloop, hname, hsolid]

/-- C2 at the two-face brush (caulk face matched, wall face not) and at the
caulk brush with the caulk rule inactive. -/
theorem C2_witness :
    FilterBrush sampleConsts 0 [textureRule "caulk" true] twoFaceBrush = some false
      ∧ FilterBrush sampleConsts 0 [textureRule "caulk" false] caulkBrush = some false :=
  ⟨C2_unmatched_face_not_excluded sampleConsts 0 [textureRule "caulk" true] twoFaceBrush
      worldspawn rfl rfl rfl rfl (by unfold NoToggle; decide)
      ⟨faceNamed "textures/base_wall/metal", by simp [twoFaceBrush, worldBrush], by
        intro r hr
        rw [← faceRuleHit_iff]
        revert r
        decide⟩,
   C2_unmatched_face_not_excluded sampleConsts 0 [textureRule "caulk" false] caulkBrush
      worldspawn rfl rfl rfl rfl (by unfold NoToggle; decide)
      ⟨faceNamed "textures/common/caulk", by simp [caulkBrush, worldBrush], by
        intro r hr
        rw [← faceRuleHit_iff]
        revert r
        decide⟩⟩

/-- C3: an object without owner (under construction) is never excluded:
FilterBrush returns false for every rule list and every exclusion bit set,
also when the object is force-hidden or a patch. -/
theorem C3_no_owner_not_excluded (c : FilterConsts) (g_exclude : Nat)
    (g_filters : List bfilter_t) (pb : brush_t) (hown : pb.owner = none) :
    FilterBrush c g_exclude g_filters pb = some false := by
  unfold FilterBrush
  rw [hown]

/-- C3 at a force-hidden patch without owner, all toggle bits set and rules
that match its shader. -/
theorem C3_witness :
    FilterBrush sampleConsts allBitsSet
      [textureRule "caulk" true, shaderFlagsRule 1 true] unownedPatch = some false :=
  C3_no_owner_not_excluded sampleConsts allBitsSet
    [textureRule "caulk" true, shaderFlagsRule 1 true] unownedPatch rfl

/-- C4: a patch that has an owner is excluded (FilterBrush returns true)
whenever the rule list holds an active ShaderFlags rule whose mask meets the
patch's shader flags or an active TextureName rule whose string occurs in
the patch's shader name, whatever the owner's class and show-flags and the
exclusion bit set. -/
theorem C4_patch_rule_excluded (c : FilterConsts) (g_exclude : Nat)
    (g_filters : List bfilter_t) (pb : brush_t) (owner : entity_t)
    (hown : pb.owner = some owner) (hpatch : pb.patchBrush = true)
    (hrule : ∃ r ∈ g_filters, RuleMatchesPatch r pb.pPatch) :
    FilterBrush c g_exclude g_filters pb = some true := by
  apply FilterBrush_of_ruleStages c g_exclude g_filters pb owner hown (Or.inl hpatch)
  unfold ruleStages
  simp [hpatch, (patchLoop_false_iff _ _).2 hrule]

/-- C4 at a patch of a "func_static" entity with an active ShaderFlags rule
behind an inactive TextureName rule. -/
theorem C4_witness :
    FilterBrush sampleConsts 0 [textureRule "caulk" false, shaderFlagsRule 1 true] funcPatch
      = some true :=
  C4_patch_rule_excluded sampleConsts 0 [textureRule "caulk" false, shaderFlagsRule 1 true]
    funcPatch ⟨⟨"func_static", 0⟩⟩ rfl rfl
    ⟨shaderFlagsRule 1 true, by simp, rfl, Or.inr ⟨rfl, by decide⟩⟩

/-- C5: with the structural bit set, every solid brush that has an owner
and whose content flags (those of its first face) lack the DETAIL bit is
excluded; and for every patch and every solid brush whose content flags
include the DETAIL bit the verdict with the structural bit set equals the
verdict with that bit cleared, the rule list and the other bits being the
same (the other four toggles use bits apart from the structural one). -/
theorem C5_structural_toggle (c : FilterConsts) (g_exclude : Nat)
    (g_filters : List bfilter_t) (pb : brush_t) (hapart : StructuralBitApart c) :
    (∀ owner contents, pb.owner = some owner → pb.patchBrush = false →
        firstFaceContents pb = some contents → contents &&& c.CONTENTS_DETAIL = 0 →
        g_exclude &&& c.EXCLUDE_STRUCTURAL ≠ 0 →
        FilterBrush c g_exclude g_filters pb = some true)
      ∧ ((pb.patchBrush = true ∨ ∃ contents, firstFaceContents pb = some contents
            ∧ contents &&& c.CONTENTS_DETAIL ≠ 0) →
          FilterBrush c (setBits g_exclude c.EXCLUDE_STRUCTURAL) g_filters pb
            = FilterBrush c (clearBits g_exclude c.EXCLUDE_STRUCTURAL) g_filters pb) := by
  obtain ⟨hw, he, hc, hd⟩ := hapart
  constructor
  · intro owner contents hown hsolid hfirst hnodetail hbit
    have hdet : detailsTest c g_exclude pb = some false := by
      unfold detailsTest
      simp only [hsolid, hfirst, (flagSet_false_iff _ _).2 hnodetail]
      split_ifs <;> rfl
    have hstr : structuralTest c g_exclude pb = some true := by
      unfold structuralTest
      simp [hsolid, hfirst, (flagSet_false_iff _ _).2 hnodetail, (flagSet_iff _ _).2 hbit]
    unfold FilterBrush
    rw [hown]
    simp only [hdet, hstr]
    split_ifs <;> rfl
  · intro hobj
    unfold FilterBrush
    rw [flagSet_setBits_apart g_exclude hw, flagSet_setBits_apart g_exclude he,
      flagSet_setBits_apart g_exclude hc, detailsTest_setBits_clearBits c g_exclude pb hd,
      structuralTest_unaffected c _ pb hobj, structuralTest_unaffected c _ pb hobj]

/-- C5 at a structural world brush (excluded by the structural bit), and at
a patch and a detail brush (same verdict with the bit set and cleared). -/
theorem C5_witness :
    FilterBrush sampleConsts sampleConsts.EXCLUDE_STRUCTURAL [] (contentsBrush 0) = some true
      ∧ FilterBrush sampleConsts (setBits 0 sampleConsts.EXCLUDE_STRUCTURAL) [] funcPatch
          = FilterBrush sampleConsts (clearBits 0 sampleConsts.EXCLUDE_STRUCTURAL) [] funcPatch
      ∧ FilterBrush sampleConsts (setBits 0 sampleConsts.EXCLUDE_STRUCTURAL) []
            (contentsBrush sampleConsts.CONTENTS_DETAIL)
          = FilterBrush sampleConsts (clearBits 0 sampleConsts.EXCLUDE_STRUCTURAL) []
            (contentsBrush sampleConsts.CONTENTS_DETAIL) :=
  ⟨(C5_structural_toggle sampleConsts sampleConsts.EXCLUDE_STRUCTURAL [] (contentsBrush 0)
      (by unfold StructuralBitApart; decide)).1 worldspawn 0 rfl rfl rfl (by decide) (by decide),
   (C5_structural_toggle sampleConsts 0 [] funcPatch
      (by unfold StructuralBitApart; decide)).2 (Or.inl rfl),
   (C5_structural_toggle sampleConsts 0 [] (contentsBrush sampleConsts.CONTENTS_DETAIL)
      (by unfold StructuralBitApart; decide)).2
      (Or.inr ⟨sampleConsts.CONTENTS_DETAIL, rfl, by decide⟩)⟩

/-- C6 as stated fails: one round of FilterListDelete and FilterUpdate,
started on the empty list, leaves 15 nodes, not 14. -/
theorem C6_counterexample :
    (rebuildTimes sampleConsts (fun _ => rawNode) 0 1 []).length = 15
      ∧ (rebuildTimes sampleConsts (fun _ => rawNode) 0 1 []).length ≠ 14 := by
  decide

/-- C6 (amended): for every starting rule list and every n >= 1, after n
rounds of FilterListDelete followed by FilterUpdate the rule list has
exactly 15 nodes. -/
theorem C6_rebuild_has_15_nodes (c : FilterConsts) (alloc : Nat → bfilter_t)
    (g_exclude : Nat) (pFilter : List bfilter_t) (n : Nat) (hn : 1 ≤ n) :
    (rebuildTimes c alloc g_exclude n pFilter).length = 15 := by
  cases n with
  | zero => omega
  | succ k => rw [rebuildTimes, rebuild_length]

/-- C6 (amended) at three rounds started from a two-node list. -/
theorem C6_witness :
    (rebuildTimes sampleConsts (fun _ => rawNode) allBitsSet 3
      [textureRule "a" true, textureRule "b" false]).length = 15 :=
  C6_rebuild_has_15_nodes sampleConsts (fun _ => rawNode) allBitsSet
    [textureRule "a" true, textureRule "b" false] 3 (by decide)

/-- C7: the rule that FilterAdd builds is active iff "bit set AND category
bit" is nonzero, so the rules that FilterUpdate puts in front of the list carry, last
call first, the active flags "bit set AND category bit is nonzero" of the
category bits handed to FilterAdd; hence on the empty list every rule of the
result is active when the bit set is fully set (the category constants being
nonzero 32-bit patterns) and every rule is inactive when it is fully clear. -/
theorem C7_active_iff_category_bit (c : FilterConsts) (alloc : Nat → bfilter_t) :
    (∀ pNew g_exclude pFilter type bmask str bit,
        (FilterAdd pNew g_exclude pFilter type bmask str bit).map (fun r => r.active)
          = decide (g_exclude &&& bit ≠ 0) :: pFilter.map (fun r => r.active))
      ∧ (∀ g_exclude pFilter,
        (FilterUpdate c alloc g_exclude pFilter).map (fun r => r.active)
          = c.ruleBits.reverse.map (fun bit => decide (g_exclude &&& bit ≠ 0))
            ++ pFilter.map (fun r => r.active))
      ∧ (c.ruleBitsAdmissible → ∀ r ∈ FilterUpdate c alloc allBitsSet [], r.active = true)
      ∧ (∀ r ∈ FilterUpdate c alloc 0 [], r.active = false) := by
  refine ⟨FilterAdd_active, fun g_exclude pFilter => FilterUpdate_active c alloc g_exclude pFilter,
    ?_, ?_⟩
  · intro hadm r hr
    have hmem : r.active ∈ (FilterUpdate c alloc allBitsSet []).map (fun r => r.active) :=
      List.mem_map_of_mem _ hr
    rw [FilterUpdate_active, List.map_nil, List.append_nil, List.mem_map] at hmem
    obtain ⟨bit, hbit, hact⟩ := hmem
    obtain ⟨hne, hlt⟩ := hadm bit (List.mem_reverse.1 hbit)
    rw [← hact, allBitsSet_land bit hlt]
    exact decide_eq_true hne
  · intro r hr
    have hmem : r.active ∈ (FilterUpdate c alloc 0 []).map (fun r => r.active) :=
      List.mem_map_of_mem _ hr
    rw [FilterUpdate_active, List.map_nil, List.append_nil, List.mem_map] at hmem
    obtain ⟨bit, _, hact⟩ := hmem
    rw [← hact]
    simp

/-- C7 at the sample constants: all 15 rules active under the full bit set,
and the flags under a bit set holding only the caulk bit. -/
theorem C7_witness :
    (∀ r ∈ FilterUpdate sampleConsts (fun _ => rawNode) allBitsSet [], r.active = true)
      ∧ (FilterUpdate sampleConsts (fun _ => rawNode) sampleConsts.EXCLUDE_CAULK []).map
          (fun r => r.active)
        = [false, false, false, false, false, false, false, false, false, false, false,
           false, false, true, false] :=
  ⟨(C7_active_iff_category_bit sampleConsts (fun _ => rawNode)).2.2.1
      (by unfold FilterConsts.ruleBitsAdmissible; decide),
   by
    rw [(C7_active_iff_category_bit sampleConsts (fun _ => rawNode)).2.1]
    decide⟩

/-- C8: rule order does not affect the verdict: for every object and every
exclusion bit set, two rule lists that are permutations of each other give
the same FilterBrush result. -/
theorem C8_rule_order_irrelevant (c : FilterConsts) (g_exclude : Nat)
    (l l2 : List bfilter_t) (pb : brush_t) (hperm : l.Perm l2) :
    FilterBrush c g_exclude l pb = FilterBrush c g_exclude l2 pb :=
  FilterBrush_congr c g_exclude l l2 pb (fun _ => any_perm _ hperm)
    (fun _ => any_perm _ hperm) (fun _ => any_perm _ hperm)

/-- C8 at the caulk brush and a two-rule list with its rules swapped. -/
theorem C8_witness :
    FilterBrush sampleConsts 0 [textureRule "caulk" true, shaderFlagsRule 1 true] caulkBrush
      = FilterBrush sampleConsts 0 [shaderFlagsRule 1 true, textureRule "caulk" true]
          caulkBrush :=
  C8_rule_order_irrelevant sampleConsts 0 [textureRule "caulk" true, shaderFlagsRule 1 true]
    [shaderFlagsRule 1 true, textureRule "caulk" true] caulkBrush (List.Perm.swap _ _ _)

/-- C9 as stated fails for ContentFlagsExcludeNoMatch: an active rule of
attribute 7 with mask 0 excludes a world brush whose face has content flags
1, and removing the rule changes the verdict to "not excluded". -/
theorem C9_counterexample :
    FilterBrush sampleConsts 0 [blankRule 7 true] (contentsBrush 1) = some true
      ∧ FilterBrush sampleConsts 0 [] (contentsBrush 1) = some false := by
  decide

/-- C9 (amended): removing, anywhere in the rule list, a rule of attribute
ShaderFlags, EntityClassFlags, SurfaceFlags or ContentFlags whose mask is 0
never changes FilterBrush's verdict, for every object and exclusion bit
set; an active ContentFlagsExcludeNoMatch rule with mask 0 hits exactly the
faces whose content flags are nonzero. -/
theorem C9_zero_mask_no_match (c : FilterConsts) (g_exclude : Nat)
    (l1 l2 : List bfilter_t) (r : bfilter_t) (pb : brush_t) (hmask : r.mask = 0) :
    ((r.attr = 2 ∨ r.attr = 4 ∨ r.attr = 5 ∨ r.attr = 6) →
        FilterBrush c g_exclude (l1 ++ r :: l2) pb = FilterBrush c g_exclude (l1 ++ l2) pb)
      ∧ (r.attr = 7 → r.active = true →
          ∀ f : face_t, faceRuleHit f r = true ↔ f.texdef.contents ≠ 0) := by
  constructor
  · intro hattr
    obtain ⟨hf, hp, he⟩ := zeroMask_no_hit r hmask hattr
    exact FilterBrush_congr c g_exclude _ _ pb
      (fun f => any_remove_of_false _ l1 l2 r (hf f))
      (fun p => any_remove_of_false _ l1 l2 r (hp p))
      (fun e => any_remove_of_false _ l1 l2 r (he e))
  · intro h7 hact f
    unfold faceRuleHit
    simp [h7, hact, hmask, flagSet_zero_mask]

/-- C9 (amended) at a patch whose shader flags are 1, with an active
ShaderFlags rule of mask 0 between two other rules. -/
theorem C9_witness :
    FilterBrush sampleConsts 0
        ([textureRule "caulk" true] ++ blankRule 2 true :: [shaderFlagsRule 1 false]) funcPatch
      = FilterBrush sampleConsts 0 ([textureRule "caulk" true] ++ [shaderFlagsRule 1 false])
          funcPatch :=
  (C9_zero_mask_no_match sampleConsts 0 [textureRule "caulk" true] [shaderFlagsRule 1 false]
    (blankRule 2 true) funcPatch rfl).1 (Or.inl rfl)

/-- C10 as stated fails: an active TextureName rule with the empty string
excludes the caulk brush, and removing it changes the verdict; an active
EntityClassName rule with the empty string excludes a patch of a "light"
entity, and removing it changes the verdict. -/
theorem C10_counterexample :
    (FilterBrush sampleConsts 0 [blankRule 1 true] caulkBrush = some true
      ∧ FilterBrush sampleConsts 0 [] caulkBrush = some false)
    ∧ (FilterBrush sampleConsts 0 [blankRule 3 true] lightPatch = some true
      ∧ FilterBrush sampleConsts 0 [] lightPatch = some false) := by
  decide

/-- C10 (amended): the substring test succeeds for the empty string on every
name, so an active TextureName rule with an empty string excludes every
owned patch and every owned solid brush with at least one face whose owner
class is "worldspawn", "func..." or "trigger...", and an active
EntityClassName rule with an empty string excludes every owned object not
owned by "worldspawn" (a patch, or a brush with at least one face). -/
theorem C10_empty_string_matches_all (c : FilterConsts) (g_exclude : Nat)
    (l1 l2 : List bfilter_t) (r : bfilter_t) (pb : brush_t) (owner : entity_t)
    (hact : r.active = true) (hstr : r.string = "") (hown : pb.owner = some owner)
    (hsafe : pb.patchBrush = true ∨ pb.brush_faces ≠ []) :
    (∀ name : String, strstr name r.string = true)
      ∧ (r.attr = 1 → (pb.patchBrush = true ∨ FaceStageClass owner.eclass.name) →
          FilterBrush c g_exclude (l1 ++ r :: l2) pb = some true)
      ∧ (r.attr = 3 → owner.eclass.name ≠ "worldspawn" →
          FilterBrush c g_exclude (l1 ++ r :: l2) pb = some true) := by
  have hall : ∀ name : String, strstr name r.string = true := by
    intro name
    rw [hstr]
    exact strstr_empty name
  have hmem : r ∈ l1 ++ r :: l2 := by simp
  refine ⟨hall, ?_, ?_⟩
  · intro h1 hobj
    cases hpatch : pb.patchBrush with
    | true =>
      exact FilterBrush_patch_hit c g_exclude _ pb owner hown hpatch
        ⟨r, hmem, hact, Or.inl ⟨h1, (strstr_iff _ _).1 (hall _)⟩⟩
    | false =>
      have hfaces : pb.brush_faces ≠ [] := by
        rcases hsafe with h | h
        · rw [hpatch] at h; exact absurd h (by decide)
        · exact h
      have hclass : FaceStageClass owner.eclass.name := by
        rcases hobj with h | h
        · rw [hpatch] at h; exact absurd h (by decide)
        · exact h
      apply FilterBrush_of_ruleStages c g_exclude _ pb owner hown (Or.inr hfaces)
      unfold ruleStages
      rw [(faceStageClass_iff _).2 hclass, hpatch, (faceLoop_true_iff _ _).2
        ⟨hfaces, fun f _ => ⟨r, hmem, hact, Or.inl ⟨h1, (strstr_iff _ _).1 (hall _)⟩⟩⟩]
      rfl
  · intro h3 hnotworld
    apply FilterBrush_of_ruleStages c g_exclude _ pb owner hown hsafe
    have hent : entityLoop owner.eclass (l1 ++ r :: l2) = false :=
      (entityLoop_false_iff _ _).2
        ⟨r, hmem, hact, Or.inl ⟨h3, (strstr_iff _ _).1 (hall _)⟩⟩
    have hname : strcmp_eq owner.eclass.name "worldspawn" = false := by
      rw [← Bool.not_eq_true, strcmp_eq_iff]
      exact hnotworld
    unfold ruleStages
    simp [hent, hname]

/-- C10 (amended) at the caulk brush with an active empty TextureName rule
behind another rule. -/
theorem C10_witness :
    FilterBrush sampleConsts 0 ([shaderFlagsRule 1 false] ++ blankRule 1 true :: [])
      caulkBrush = some true :=
  (C10_empty_string_matches_all sampleConsts 0 [shaderFlagsRule 1 false] [] (blankRule 1 true)
    caulkBrush worldspawn rfl rfl rfl (Or.inr (by decide))).2.1 rfl (Or.inr (Or.inl rfl))

/-- C11 as stated fails on a solid brush without faces: with the details
bit set the evaluation dereferences the null face pointer before it reaches
the entity stage, so FilterBrush does not return true although an active
EntityClassName rule and an active EntityClassFlags rule match the owner. -/
theorem C11_counterexample :
    FilterBrush sampleConsts sampleConsts.EXCLUDE_DETAILS
        [classNameRule "light" true, classFlagsRule 1 true] facelessLight = none
      ∧ FilterBrush sampleConsts sampleConsts.EXCLUDE_DETAILS
        [classNameRule "light" true, classFlagsRule 1 true] facelessLight ≠ some true := by
  decide

/-- C11 (amended): for every object that has an owner whose class name is
not exactly "worldspawn" ("func_group" included) and that is a patch, or has
at least one face, or is evaluated with the details and structural bits
clear: if the rule list holds an active EntityClassName rule whose string
occurs in the owner's class name, or an active EntityClassFlags rule whose
mask meets the owner's show-flags, FilterBrush returns true. -/
theorem C11_entity_rule_excluded (c : FilterConsts) (g_exclude : Nat)
    (g_filters : List bfilter_t) (pb : brush_t) (owner : entity_t)
    (hown : pb.owner = some owner) (hnotworld : owner.eclass.name ≠ "worldspawn")
    (hsafe : FacesSafe c g_exclude pb)
    (hrule : ∃ r ∈ g_filters, RuleMatchesEntity r owner.eclass) :
    FilterBrush c g_exclude g_filters pb = some true :=
  FilterBrush_of_ruleStages_safe c g_exclude g_filters pb owner hown hsafe
    (ruleStages_of_entity_hit g_filters pb owner hnotworld hrule)

/-- C11 (amended) at a "func_group" brush with an active EntityClassName
rule "group" and the details bit set, and at the faceless "light" brush with
an active EntityClassFlags rule and no toggle bit set. -/
theorem C11_witness :
    FilterBrush sampleConsts sampleConsts.EXCLUDE_DETAILS [classNameRule "group" true]
        groupBrush = some true
      ∧ FilterBrush sampleConsts 0 [classFlagsRule 1 true] facelessLight = some true :=
  ⟨C11_entity_rule_excluded sampleConsts sampleConsts.EXCLUDE_DETAILS
      [classNameRule "group" true] groupBrush ⟨⟨"func_group", 0⟩⟩ rfl (by decide)
      (Or.inr (Or.inl (by decide)))
      ⟨classNameRule "group" true, by simp, rfl,
        Or.inl ⟨rfl, (strstr_iff _ _).1 (by decide)⟩⟩,
   C11_entity_rule_excluded sampleConsts 0 [classFlagsRule 1 true] facelessLight
      ⟨⟨"light", 1⟩⟩ rfl (by decide) (Or.inr (Or.inr ⟨by decide, by decide⟩))
      ⟨classFlagsRule 1 true, by simp, rfl, Or.inr ⟨rfl, by decide⟩⟩⟩

/-- C12: for every object that has an owner and every rule list, FilterBrush
returns true when the world bit is set and the owner's class is exactly
"worldspawn" or "func_group", when the entity bit is set and the class is
neither, and when the curves bit is set and the object is a patch; hence
with both the world and the entity bit set every owned object is excluded. -/
theorem C12_global_toggles (c : FilterConsts) (g_exclude : Nat)
    (g_filters : List bfilter_t) (pb : brush_t) (owner : entity_t)
    (hown : pb.owner = some owner) :
    (g_exclude &&& c.EXCLUDE_WORLD ≠ 0 → WorldClass owner.eclass.name →
        FilterBrush c g_exclude g_filters pb = some true)
      ∧ (g_exclude &&& c.EXCLUDE_ENT ≠ 0 → ¬ WorldClass owner.eclass.name →
        FilterBrush c g_exclude g_filters pb = some true)
      ∧ (g_exclude &&& c.EXCLUDE_CURVES ≠ 0 → pb.patchBrush = true →
        FilterBrush c g_exclude g_filters pb = some true)
      ∧ (g_exclude &&& c.EXCLUDE_WORLD ≠ 0 → g_exclude &&& c.EXCLUDE_ENT ≠ 0 →
        FilterBrush c g_exclude g_filters pb = some true) := by
  have hW : g_exclude &&& c.EXCLUDE_WORLD ≠ 0 → WorldClass owner.eclass.name →
      FilterBrush c g_exclude g_filters pb = some true := by
    intro hbit hcls
    apply FilterBrush_early c g_exclude g_filters pb owner hown
    unfold earlyHit
    simp [(flagSet_iff _ _).2 hbit, (worldClass_iff _).2 hcls]
  have hE : g_exclude &&& c.EXCLUDE_ENT ≠ 0 → ¬ WorldClass owner.eclass.name →
      FilterBrush c g_exclude g_filters pb = some true := by
    intro hbit hcls
    have hnot : (strcmp_eq owner.eclass.name "worldspawn"
        || strcmp_eq owner.eclass.name "func_group") = false := by
      rw [← Bool.not_eq_true, worldClass_iff]
      exact hcls
    rw [Bool.or_eq_false_iff] at hnot
    apply FilterBrush_early c g_exclude g_filters pb owner hown
    unfold earlyHit
    simp [(flagSet_iff _ _).2 hbit, hnot.1, hnot.2]
  refine ⟨hW, hE, ?_, ?_⟩
  · intro hbit hpatch
    apply FilterBrush_early c g_exclude g_filters pb owner hown
    unfold earlyHit
    simp [(flagSet_iff _ _).2 hbit, hpatch]
  · intro hbw hbe
    by_cases hcls : WorldClass owner.eclass.name
    · exact hW hbw hcls
    · exact hE hbe hcls

/-- C12 at the sample constants: the world bit on a "func_group" brush, the
entity bit on a patch of a "light" entity, the curves bit on the same patch,
and both bits on the faceless "light" brush. -/
theorem C12_witness :
    FilterBrush sampleConsts sampleConsts.EXCLUDE_WORLD [] groupBrush = some true
      ∧ FilterBrush sampleConsts sampleConsts.EXCLUDE_ENT [] lightPatch = some true
      ∧ FilterBrush sampleConsts sampleConsts.EXCLUDE_CURVES [] lightPatch = some true
      ∧ FilterBrush sampleConsts (sampleConsts.EXCLUDE_WORLD ||| sampleConsts.EXCLUDE_ENT) []
          facelessLight = some true :=
  ⟨(C12_global_toggles sampleConsts sampleConsts.EXCLUDE_WORLD [] groupBrush
      ⟨⟨"func_group", 0⟩⟩ rfl).1 (by decide) (Or.inr rfl),
   (C12_global_toggles sampleConsts sampleConsts.EXCLUDE_ENT [] lightPatch
      ⟨⟨"light", 0⟩⟩ rfl).2.1 (by decide) (by unfold WorldClass; decide),
   (C12_global_toggles sampleConsts sampleConsts.EXCLUDE_CURVES [] lightPatch
      ⟨⟨"light", 0⟩⟩ rfl).2.2.1 (by decide) rfl,
   (C12_global_toggles sampleConsts (sampleConsts.EXCLUDE_WORLD ||| sampleConsts.EXCLUDE_ENT)
      [] facelessLight ⟨⟨"light", 1⟩⟩ rfl).2.2.2 (by decide) (by decide)⟩

/-- C13: FilterBrush returns true for every force-hidden object that has an
owner, for every rule list (the empty one and those without active rule
included) and every exclusion bit set (zero included). -/
theorem C13_force_hidden_excluded (c : FilterConsts) (g_exclude : Nat)
    (g_filters : List bfilter_t) (pb : brush_t) (owner : entity_t)
    (hown : pb.owner = some owner) (hhidden : pb.hiddenBrush = true) :
    FilterBrush c g_exclude g_filters pb = some true := by
  apply FilterBrush_early c g_exclude g_filters pb owner hown
  unfold earlyHit
  simp [hhidden]

/-- C13 at a force-hidden world brush with the empty rule list and the zero
bit set. -/
theorem C13_witness : FilterBrush sampleConsts 0 [] hiddenBrush = some true :=
  C13_force_hidden_excluded sampleConsts 0 [] hiddenBrush worldspawn rfl rfl

/-- C14: FilterAdd prepends one node: the result is a new head followed by
exactly the old list (so the length grows by 1); the head has attribute =
type, the string text when type is 1 or 3, the mask when type is 2, 4, 5, 6
or 7, and is active iff "bit set AND bit" is nonzero. Hence FilterUpdate
keeps the old list as a suffix and puts the 15 rules it adds in front of it
in reverse order of addition: "clipmonster" at the head, "clip" right before
the old list. -/
theorem C14_FilterAdd_prepends (c : FilterConsts) (alloc : Nat → bfilter_t)
    (pNew : bfilter_t) (g_exclude : Nat) (pFilter : List bfilter_t) (type : Int)
    (bmask : Nat) (str : String) (exclude : Nat) :
    (∃ head, FilterAdd pNew g_exclude pFilter type bmask str exclude = head :: pFilter
        ∧ head.attr = type
        ∧ (type = 1 ∨ type = 3 → head.string = str)
        ∧ (type = 2 ∨ type = 4 ∨ type = 5 ∨ type = 6 ∨ type = 7 → head.mask = bmask)
        ∧ (head.active = true ↔ g_exclude &&& exclude ≠ 0))
      ∧ (FilterAdd pNew g_exclude pFilter type bmask str exclude).length = pFilter.length + 1
      ∧ (∃ added, FilterUpdate c alloc g_exclude pFilter = added ++ pFilter
          ∧ added.map (fun r => (r.attr, payload r)) = (standardRuleSet c).reverse
          ∧ (added.head?.map fun r => (r.attr, r.string)) = some (1, "clipmonster")
          ∧ (added.getLast?.map fun r => (r.attr, r.string)) = some (1, "clip")) := by
  refine ⟨?_, FilterAdd_length pNew g_exclude pFilter type bmask str exclude, ?_⟩
  · refine ⟨_, rfl, ?_, ?_, ?_, ?_⟩
    · split_ifs <;> rfl
    · intro h
      simp only [h, if_true]
      split_ifs <;> rfl
    · intro h
      simp only [h, if_true]
      split_ifs <;> rfl
    · rw [← flagSet_iff]
      cases flagSet g_exclude exclude <;> simp
  · refine ⟨FilterUpdate c alloc g_exclude [], FilterUpdate_append c alloc g_exclude pFilter,
      ?_, ?_, ?_⟩
    · simp only [FilterUpdate]
      repeat rw [FilterAdd_payload _ _ _ _ _ _ _ (by decide)]
      simp [standardRuleSet]
    · simp only [FilterUpdate]
      simp [FilterAdd]
      split_ifs <;> exact ⟨rfl, rfl⟩
    · simp only [FilterUpdate]
      simp [FilterAdd]
      split_ifs <;> exact ⟨rfl, rfl⟩

/-- C15: a rule whose attribute is not one of 1..7 is a silent no-op:
inserting it anywhere in the rule list, active or not and with any payload,
leaves FilterBrush's verdict unchanged, for every object and exclusion bit
set. -/
theorem C15_unknown_attribute_no_op (c : FilterConsts) (g_exclude : Nat)
    (l1 l2 : List bfilter_t) (r : bfilter_t) (pb : brush_t)
    (hattr : r.attr < 1 ∨ 7 < r.attr) :
    FilterBrush c g_exclude (l1 ++ r :: l2) pb = FilterBrush c g_exclude (l1 ++ l2) pb := by
  obtain ⟨hf, hp, he⟩ := unknownAttr_no_hit r hattr
  exact FilterBrush_congr c g_exclude _ _ pb
    (fun f => any_remove_of_false _ l1 l2 r (hf f))
    (fun p => any_remove_of_false _ l1 l2 r (hp p))
    (fun e => any_remove_of_false _ l1 l2 r (he e))

/-- C15 at the caulk brush: an active rule of attribute 99 inserted between
two rules. -/
theorem C15_witness :
    FilterBrush sampleConsts 0
        ([shaderFlagsRule 1 true] ++ rawNode :: [textureRule "caulk" true]) caulkBrush
      = FilterBrush sampleConsts 0 ([shaderFlagsRule 1 true] ++ [textureRule "caulk" true])
          caulkBrush :=
  C15_unknown_attribute_no_op sampleConsts 0 [shaderFlagsRule 1 true]
    [textureRule "caulk" true] rawNode caulkBrush (Or.inr (by decide))

/-- C16: for a single-face solid brush of "worldspawn", not force-hidden,
evaluated with no toggle bit set and the rule list made of one active
ContentFlagsExcludeNoMatch rule with mask m, FilterBrush returns true iff
the face's content flags are nonzero and (content flags AND m) is zero, and
returns false otherwise; a face whose content flags are zero is matched
neither by an attribute 7 rule nor by a ContentFlags (attribute 6) rule. -/
theorem C16_no_match_rule (c : FilterConsts) (g_exclude : Nat) (r : bfilter_t)
    (pb : brush_t) (owner : entity_t) (f : face_t)
    (hown : pb.owner = some owner) (hworld : owner.eclass.name = "worldspawn")
    (hsolid : pb.patchBrush = false) (hvis : pb.hiddenBrush = false)
    (hface : pb.brush_faces = [f]) (htog : NoToggle c g_exclude)
    (hattr : r.attr = 7) (hact : r.active = true) :
    FilterBrush c g_exclude [r] pb
        = some (decide (f.texdef.contents ≠ 0 ∧ f.texdef.contents &&& r.mask = 0))
      ∧ (FilterBrush c g_exclude [r] pb = some true
          ↔ f.texdef.contents ≠ 0 ∧ f.texdef.contents &&& r.mask = 0)
      ∧ (∀ (r2 : bfilter_t) (f2 : face_t), r2.attr = 6 ∨ r2.attr = 7 →
          f2.texdef.contents = 0 → faceRuleHit f2 r2 = false) := by
  have hname : strcmp_eq owner.eclass.name "worldspawn" = true :=
    (strcmp_eq_iff _ _).2 hworld
  have hhit : faceRuleHit f r
      = decide (f.texdef.contents ≠ 0 ∧ f.texdef.contents &&& r.mask = 0) := by
    unfold faceRuleHit
    rw [Bool.eq_iff_iff]
    simp [hattr, hact, flagSet]
  have hverdict : FilterBrush c g_exclude [r] pb
      = some (decide (f.texdef.contents ≠ 0 ∧ f.texdef.contents &&& r.mask = 0)) := by
    rw [FilterBrush_noToggle c g_exclude [r] pb owner hown hvis htog]
    unfold ruleStages
    rw [hface, faceLoop_cons]
    simp [hname, hsolid, faceRuleLoop, hhit]
  refine ⟨hverdict, ?_, ?_⟩
  · rw [hverdict]
    simp
  · intro r2 f2 h67 hzero
    unfold faceRuleHit
    rcases h67 with h | h <;> simp [h, hzero]

/-- C16 at a brush whose face has content flags 4, with mask 3 (excluded),
at the sample constants and no toggle bit. -/
theorem C16_witness :
    FilterBrush sampleConsts 0 [noMatchRule 3 true] (contentsBrush 4) = some true :=
  (C16_no_match_rule sampleConsts 0 (noMatchRule 3 true) (contentsBrush 4) worldspawn
    ⟨⟨"textures/base_wall/metal", 0⟩, ⟨0, 4⟩⟩ rfl rfl rfl rfl rfl
    (by unfold NoToggle; decide) rfl rfl).2.1.2 ⟨by decide, by decide⟩

/-- C18: with no rule active and none of the five toggle bits set,
FilterBrush returns true iff the object has an owner and is force-hidden,
and returns false otherwise. -/
theorem C18_all_off_only_hidden (c : FilterConsts) (g_exclude : Nat)
    (g_filters : List bfilter_t) (pb : brush_t)
    (hoff : ∀ r ∈ g_filters, r.active = false) (htog : NoToggle c g_exclude) :
    FilterBrush c g_exclude g_filters pb = some (pb.owner.isSome && pb.hiddenBrush)
      ∧ (FilterBrush c g_exclude g_filters pb = some true
          ↔ (∃ owner, pb.owner = some owner) ∧ pb.hiddenBrush = true) := by
  have hverdict :
      FilterBrush c g_exclude g_filters pb = some (pb.owner.isSome && pb.hiddenBrush) := by
    cases hown : pb.owner with
    | none =>
      unfold FilterBrush
      rw [hown]
      rfl
    | some owner =>
      cases hvis : pb.hiddenBrush with
      | true =>
        apply FilterBrush_early c g_exclude g_filters pb owner hown
        unfold earlyHit
        simp [hvis]
      | false =>
        rw [FilterBrush_noToggle c g_exclude g_filters pb owner hown hvis htog]
        have hrule : ruleStages g_filters pb owner = ruleStages [] pb owner :=
          ruleStages_congr g_filters [] pb owner
            (fun f => any_false_of_forall _ _ (fun r hr => (inactive_no_hit r (hoff r hr)).1 f))
            (fun q => any_false_of_forall _ _
              (fun r hr => (inactive_no_hit r (hoff r hr)).2.1 q))
            (fun e => any_false_of_forall _ _
              (fun r hr => (inactive_no_hit r (hoff r hr)).2.2 e))
        rw [hrule, ruleStages_nil]
        rfl
  refine ⟨hverdict, ?_⟩
  rw [hverdict]
  cases hown : pb.owner <;> simp

/-- C18 at the caulk brush with the caulk rule inactive (not excluded) and
at a force-hidden brush (excluded). -/
theorem C18_witness :
    FilterBrush sampleConsts 0 [textureRule "caulk" false] caulkBrush = some false
      ∧ FilterBrush sampleConsts 0 [textureRule "caulk" false] hiddenBrush = some true :=
  ⟨(C18_all_off_only_hidden sampleConsts 0 [textureRule "caulk" false] caulkBrush
      (by decide) (by unfold NoToggle; decide)).1,
   (C18_all_off_only_hidden sampleConsts 0 [textureRule "caulk" false] hiddenBrush
      (by decide) (by unfold NoToggle; decide)).1⟩

/-- C19: the all-faces conjunction is not vacuously true: a solid brush of
"worldspawn" with an empty face sequence, not force-hidden, evaluated with
the world, details and structural bits clear, gets FilterBrush = false for
every rule list. -/
theorem C19_faceless_not_excluded (c : FilterConsts) (g_exclude : Nat)
    (g_filters : List bfilter_t) (pb : brush_t) (owner : entity_t)
    (hown : pb.owner = some owner) (hworld : owner.eclass.name = "worldspawn")
    (hsolid : pb.patchBrush = false) (hvis : pb.hiddenBrush = false)
    (hfaces : pb.brush_faces = [])
    (hw : g_exclude &&& c.EXCLUDE_WORLD = 0) (hd : g_exclude &&& c.EXCLUDE_DETAILS = 0)
    (hs : g_exclude &&& c.EXCLUDE_STRUCTURAL = 0) :
    FilterBrush c g_exclude g_filters pb = some false := by
  have hname : strcmp_eq owner.eclass.name "worldspawn" = true :=
    (strcmp_eq_iff _ _).2 hworld
  have hearly : earlyHit c g_exclude pb owner = false := by
    unfold earlyHit
    simp [hvis, (flagSet_false_iff _ _).2 hw, hname, hsolid]
  rw [FilterBrush_eq_early_late c g_exclude g_filters pb owner hown, hearly]
  unfold lateStages
  rw [detailsTest_noToggle c g_exclude pb hd, structuralTest_noToggle c g_exclude pb hs,
    ruleStages_faceless_world g_filters pb owner hworld hsolid hfaces]
  rfl

/-- C19 at the faceless world brush, with the entity and curves bits set
and active rules of every kind. -/
theorem C19_witness :
    FilterBrush sampleConsts (sampleConsts.EXCLUDE_ENT ||| sampleConsts.EXCLUDE_CURVES)
      [blankRule 1 true, noMatchRule 0 true, classNameRule "world" true] facelessWorldBrush
      = some false :=
  C19_faceless_not_excluded sampleConsts
    (sampleConsts.EXCLUDE_ENT ||| sampleConsts.EXCLUDE_CURVES)
    [blankRule 1 true, noMatchRule 0 true, classNameRule "world" true] facelessWorldBrush
    worldspawn rfl rfl rfl rfl rfl (by decide) (by decide) (by decide)

/-- C17 as stated fails on a solid brush without faces: the faceless "light"
brush is excluded by an active EntityClassFlags rule under the zero bit set,
but under the bit set that also holds the details bit the evaluation
dereferences the null face pointer and returns nothing. -/
theorem C17_counterexample :
    BitsInclude 0 sampleConsts.EXCLUDE_DETAILS
      ∧ FilterBrush sampleConsts 0 [classFlagsRule 1 true] facelessLight = some true
      ∧ FilterBrush sampleConsts sampleConsts.EXCLUDE_DETAILS [classFlagsRule 1 true]
          facelessLight = none
      ∧ FilterBrush sampleConsts sampleConsts.EXCLUDE_DETAILS [classFlagsRule 1 true]
          facelessLight ≠ some true := by
  unfold BitsInclude
  decide

/-- C17 (amended): FilterBrush is monotone in what is switched on. If it
returns true under rule list l and bit set e, then (1) for every object it
returns true under e and any rule list l2 obtained from l by turning
inactive rules active and/or inserting rules; (2) under any bit set e2 whose
set bits include those of e it never returns false, with l or with l2; and
(3) under such an e2 it returns true, with l and with l2, whenever the
object is a patch, or has at least one face, or the details and structural
bits of e2 are clear. -/
theorem C17_monotone_switching_on (c : FilterConsts) (e e2 : Nat) (l l2 : List bfilter_t)
    (pb : brush_t) (hrules : RulesSwitchedOn l l2) (hbits : BitsInclude e e2)
    (htrue : FilterBrush c e l pb = some true) :
    FilterBrush c e l2 pb = some true
      ∧ (FilterBrush c e2 l pb ≠ some false ∧ FilterBrush c e2 l2 pb ≠ some false)
      ∧ (FacesSafe c e2 pb →
          FilterBrush c e2 l pb = some true ∧ FilterBrush c e2 l2 pb = some true) :=
  ⟨FilterBrush_rules_mono c e pb hrules htrue,
   ⟨(FilterBrush_mono c pb (RulesSwitchedOn_refl l) hbits htrue).1,
    (FilterBrush_mono c pb hrules hbits htrue).1⟩,
   fun hsafe => ⟨(FilterBrush_mono c pb (RulesSwitchedOn_refl l) hbits htrue).2 hsafe,
    (FilterBrush_mono c pb hrules hbits htrue).2 hsafe⟩⟩

/-- C17 (amended) at the caulk brush: the inactive caulk rule is turned
active, a rule is inserted in front, and the details bit is added to a bit
set that excluded the brush through the world bit. -/
theorem C17_witness :
    FilterBrush sampleConsts (sampleConsts.EXCLUDE_WORLD ||| sampleConsts.EXCLUDE_DETAILS)
      [shaderFlagsRule 1 true, textureRule "caulk" true] caulkBrush = some true :=
  ((C17_monotone_switching_on sampleConsts sampleConsts.EXCLUDE_WORLD
    (sampleConsts.EXCLUDE_WORLD ||| sampleConsts.EXCLUDE_DETAILS)
    [textureRule "caulk" false] [shaderFlagsRule 1 true, textureRule "caulk" true] caulkBrush
    (RulesSwitchedOn.insert _ (RulesSwitchedOn.activate (textureRule "caulk" false)
      RulesSwitchedOn.nil))
    (by unfold BitsInclude; decide) (by decide)).2.2 (Or.inr (Or.inl (by decide)))).2

/-- C20 as stated fails: the plugin name is pushed into the buffer as it
is, so with the plugin name "my plug" and the command name "About" the
returned string is "my plug::About", which contains a space. -/
theorem C20_counterexample :
    plugin_construct_command_name "my plug" "About" = "my plug::About"
      ∧ ' ' ∈ (plugin_construct_command_name "my plug" "About").data := by
  decide

/-- C20 (amended): plugin_construct_command_name removes the spaces of the
command name and camel-cases it. The buffer is the plugin name followed by
"::" (absent iff the command name starts, case-insensitively, with the
plugin name) followed by the camel-cased command name, in which no space
occurs, every non-space character that directly follows a space is
upper-cased and every other non-space character is kept, in order; the
result is that buffer with its trailing periods deleted and then its first
character lower-cased. The result contains no space when the command name
starts with the plugin name or the plugin name contains no space. -/
theorem C20_command_name_shape (pluginName commandName : String) :
    (∃ (k : Nat) (body : List Char),
        namePrefixPart pluginName commandName ++ camelSpec commandName.data
            = body ++ List.replicate k '.'
          ∧ body.getLast? ≠ some '.'
          ∧ (plugin_construct_command_name pluginName commandName).data = lowerFirst body)
      ∧ (∀ ch ∈ camelSpec commandName.data, ch ≠ ' ')
      ∧ ((StartsNoCase commandName pluginName ∨ ' ' ∉ pluginName.data) →
          ' ' ∉ (plugin_construct_command_name pluginName commandName).data)
      ∧ (StartsNoCase commandName pluginName → namePrefixPart pluginName commandName = [])
      ∧ (¬ StartsNoCase commandName pluginName →
          namePrefixPart pluginName commandName = pluginName.data ++ "::".data) := by
  obtain ⟨k, hk, hend⟩ := delTrailingPeriods_spec
    (namePrefixPart pluginName commandName ++ camelSpec commandName.data).length
    (namePrefixPart pluginName commandName ++ camelSpec commandName.data) (le_refl _)
  have hdata := plugin_construct_command_name_data pluginName commandName
  have hstart : StartsNoCase commandName pluginName →
      namePrefixPart pluginName commandName = [] := by
    intro h
    unfold namePrefixPart
    rw [(string_equal_prefix_nocase_iff _ _).2 h]
    rfl
  have hnostart : ¬ StartsNoCase commandName pluginName →
      namePrefixPart pluginName commandName = pluginName.data ++ "::".data := by
    intro h
    have hf : string_equal_prefix_nocase commandName pluginName = false := by
      rw [← Bool.not_eq_true, string_equal_prefix_nocase_iff]
      exact h
    unfold namePrefixPart
    rw [hf]
    rfl
  refine ⟨⟨k, _, hk, hend, hdata⟩, camelSpec_no_space commandName.data, ?_, hstart, hnostart⟩
  intro hcase hmem
  have hpart : ∀ ch ∈ namePrefixPart pluginName commandName, ch ≠ ' ' := by
    by_cases hs : StartsNoCase commandName pluginName
    · rw [hstart hs]
      simp
    · rw [hnostart hs]
      have hplug : ' ' ∉ pluginName.data := hcase.resolve_left hs
      intro ch hch
      rw [List.mem_append] at hch
      rcases hch with hch | hch
      · intro h0
        rw [h0] at hch
        exact hplug hch
      · intro h0
        rw [h0] at hch
        revert hch
        decide
  have hbuf : ∀ ch ∈ delTrailingPeriods
      (namePrefixPart pluginName commandName ++ camelSpec commandName.data).length
      (namePrefixPart pluginName commandName ++ camelSpec commandName.data), ch ≠ ' ' := by
    intro ch hch
    have hin : ch ∈ namePrefixPart pluginName commandName ++ camelSpec commandName.data := by
      rw [hk]
      exact List.mem_append_left _ hch
    rw [List.mem_append] at hin
    rcases hin with hin | hin
    · exact hpart ch hin
    · exact camelSpec_no_space commandName.data ch hin
  rw [hdata] at hmem
  exact lowerFirst_no_space _ hbuf ' ' hmem rfl
